import Mathlib

set_option maxRecDepth 8000

/-!
Shallow embedding of the reactive input-box / variable-binding engine of the
squap repository (`src/input_widget.py`, `src/table_manager.py`,
`src/helper_funcs.py`), together with theorems settling the frozen claims
about link propagation, slider snapping, `change_params` atomicity, table
row management, per-frame callbacks, dropdowns and `InputBox` round-trips.

Modelling conventions:
* Qt signal/slot dispatch is modelled explicitly: each box has an ordered
  list of connected slots; emitting a signal runs the slots connected at the
  start of the emission, in order.  Slots are first-order descriptors
  (`Slot`), mirroring the concrete closures created in the source.
* Python attribute mutation on boxes is modelled by state records with
  function-valued fields updated pointwise (`Squap.upd`).
* Numeric values are rationals (the Python floats, idealised); `np.argmin`
  is the first index attaining the minimum (`Squap.argminL`), exactly the
  documented numpy tie-breaking.
* `np.log10` (used only in the log-scale snapping branch) is idealised to
  `Real.logb 10`; the branch is never forced when evaluating linear-scale
  scenarios.
* The interpreter is fuel-indexed; every recursive call spends one unit of
  fuel, and all concrete scenarios are run with ample fuel.
-/

deriving instance DecidableEq for Except

namespace Squap

/-- Pointwise update of a function, used to model attribute/dict mutation
on a Python object (`setattr(obj, k, v)` / `d[k] = v`). -/
def upd {κ α : Type} [DecidableEq κ] (f : κ → α) (k : κ) (v : α) : κ → α :=
  fun x => if x = k then v else f x

@[simp] theorem upd_same {κ α : Type} [DecidableEq κ] (f : κ → α) (k : κ) (v : α) :
    upd f k v k = v := by
  simp [upd]

@[simp] theorem upd_other {κ α : Type} [DecidableEq κ] (f : κ → α) (k x : κ) (v : α)
    (h : x ≠ k) : upd f k v x = f x := by
  simp [upd, h]

/-- First index of the minimum of a list: `np.argmin` semantics (ties are
resolved to the earliest index; `np.argmin` of an empty array raises, the
value `0` returned here for `[]` is junk never relied upon). -/
def argminL {β : Type} [LinearOrder β] : List β → ℕ
  | [] => 0
  | b :: rest =>
    let j := argminL rest
    if rest.getD j b < b then j + 1 else 0

/-- `np.argmin(f(arr))`: first index of `l` minimising `f`. -/
def argminIdx {α β : Type} [LinearOrder β] (f : α → β) (l : List α) : ℕ :=
  argminL (l.map f)

theorem argminL_lt_length {β : Type} [LinearOrder β] (l : List β) (h : l ≠ []) :
    argminL l < l.length := by
  induction l with
  | nil => simp at h
  | cons b rest ih =>
    rw [show argminL (b :: rest)
        = if rest.getD (argminL rest) b < b then argminL rest + 1 else 0 from rfl]
    by_cases hlt : rest.getD (argminL rest) b < b
    · rw [if_pos hlt]
      have hne : rest ≠ [] := by
        intro he
        rw [he] at hlt
        simp at hlt
      have := ih hne
      simpa using Nat.succ_lt_succ this
    · rw [if_neg hlt]
      simp

/-- The default value of `List.getD` is irrelevant for in-bounds indices. -/
theorem getD_irrel {β : Type} (l : List β) (j : ℕ) (hj : j < l.length) (d d2 : β) :
    l.getD j d = l.getD j d2 := by
  rw [List.getD_eq_getElem?_getD, List.getD_eq_getElem?_getD, List.getElem?_eq_getElem hj]
  simp

theorem argminL_min {β : Type} [LinearOrder β] :
    ∀ (l : List β) (d : β) (j : ℕ), j < l.length →
      l.getD (argminL l) d ≤ l.getD j d := by
  intro l
  induction l with
  | nil => intro d j hj; simp at hj
  | cons b rest ih =>
    intro d j hj
    rw [show argminL (b :: rest)
        = if rest.getD (argminL rest) b < b then argminL rest + 1 else 0 from rfl]
    by_cases hlt : rest.getD (argminL rest) b < b
    · have hne : rest ≠ [] := by
        intro he; rw [he] at hlt; simp at hlt
      have hbound := argminL_lt_length rest hne
      rw [if_pos hlt]
      simp only [List.getD_cons_succ]
      rcases j with _ | j
      · simp only [List.getD_cons_zero]
        calc rest.getD (argminL rest) d = rest.getD (argminL rest) b :=
              getD_irrel rest _ hbound d b
          _ ≤ b := le_of_lt hlt
      · have hj2 : j < rest.length := by simpa using Nat.lt_of_succ_lt_succ hj
        simp only [List.getD_cons_succ]
        calc rest.getD (argminL rest) d = rest.getD (argminL rest) b :=
              getD_irrel rest _ hbound d b
          _ ≤ rest.getD j b := ih b j hj2
          _ = rest.getD j d := getD_irrel rest j hj2 b d
    · push_neg at hlt
      rw [if_neg (not_lt.mpr hlt)]
      simp only [List.getD_cons_zero]
      rcases j with _ | j
      · simp
      · have hj2 : j < rest.length := by simpa using Nat.lt_of_succ_lt_succ hj
        simp only [List.getD_cons_succ]
        calc b ≤ rest.getD (argminL rest) b := hlt
          _ ≤ rest.getD j b := ih b j hj2
          _ = rest.getD j d := getD_irrel rest j hj2 b d

/-! ## The signal/slot and link-propagation model

Embeds `InputTable.Slider` (bind/unbind/on_change/set_value/value,
`input_widget.py:580-614`) and `TableManager.link_boxes`
(`table_manager.py:147-181`) over an explicit Qt-style signal/slot engine.
Boxes are identified by natural numbers.  Counters (`onChangeCount`,
`writeCount`, `linkRunCount`) and the `pushLog` are observation-only fields:
no operation reads them. -/

/-- A slot connected to a box's `valueChanged` signal.  `onChange b` is box
`b`'s bound method `on_change`; `link b g` is the closure `func` created by
`link_boxes` for originating box `b` in link group `g`
(`table_manager.py:169-177`); `linkNoop b g` is the trivial closure created
when `b` is in `only_update_boxes` (`table_manager.py:165-166`). -/
inductive Slot where
  | onChange (b : ℕ)
  | link (b : ℕ) (g : ℕ)
  | linkNoop (b : ℕ) (g : ℕ)
  deriving DecidableEq, Repr

/-- Global state of the reactive engine: per-box slider state (variable
value, position, value array, mode, bounds), per-box signal connections and
`change_funcs`, the per-box `link_funcs` dict keyed by group id, the group
registry of `TableManager` (`n_links` and each group's box list), plus
observation-only counters and logs. -/
structure LState where
  vars : ℕ → ℚ
  pos : ℕ → ℕ
  arr : ℕ → List ℚ
  logscale : ℕ → Bool
  minV : ℕ → ℚ
  maxV : ℕ → ℚ
  connections : ℕ → List Slot
  changeFuncs : ℕ → List Slot
  linkFuncs : ℕ → List (ℕ × Slot)
  groupBoxes : ℕ → List ℕ
  nLinks : ℕ
  onChangeCount : ℕ → ℕ
  writeCount : ℕ → ℕ
  linkRunCount : ℕ → ℕ
  pushLog : List (ℕ × ℕ × List ℕ)
  errs : List String

/-- `Box.value()` for a slider: `getattr(self.parent.variables,
self.current_name)` (`input_widget.py:607-608`). -/
def valueL (st : LState) (b : ℕ) : ℚ := st.vars b

/-- `Slider.bind` (`input_widget.py:580-583`): append to `change_funcs` and
connect to the signal. -/
def bindL (st : LState) (b : ℕ) (f : Slot) : LState :=
  { st with changeFuncs := upd st.changeFuncs b (st.changeFuncs b ++ [f]),
            connections := upd st.connections b (st.connections b ++ [f]) }

/-- `Slider.unbind` (`input_widget.py:585-591`): raise if the function is
neither bound nor `on_change` (modelled as an error log entry), otherwise
disconnect from the signal and drop it from `change_funcs` (unless it is
`on_change`). -/
def unbindL (st : LState) (b : ℕ) (f : Slot) : LState :=
  if f ∉ st.changeFuncs b ∧ f ≠ Slot.onChange b then
    { st with errs := st.errs ++ ["Function is not bound to this Box."] }
  else
    let conns := (st.connections b).filter (· ≠ f)
    let st1 := { st with connections := upd st.connections b conns }
    if f ≠ Slot.onChange b then
      { st1 with changeFuncs := upd st1.changeFuncs b ((st1.changeFuncs b).erase f) }
    else st1

/-- The link groups of box `b` whose callbacks are currently connected to
`b`'s signal (an observation used by the push log). -/
def connectedLinkGroups (st : LState) (b : ℕ) : List ℕ :=
  ((st.linkFuncs b).filter (fun p => p.snd ∈ st.connections b)).map Prod.fst

/-- `np.abs` on a rational, written with an explicit sign test (defeq to
`|q|`, see `absQ_eq_abs`). -/
def absQ (q : ℚ) : ℚ := if q < 0 then -q else q

theorem absQ_eq_abs (q : ℚ) : absQ q = |q| := by
  by_cases h : q < 0
  · simp [absQ, h, abs_of_neg h]
  · simp [absQ, h, abs_of_nonneg (not_lt.mp h)]

/-- The distance used by log-scale snapping:
`|np.log10(a) - np.log10(v)|`, idealised over the reals
(`input_widget.py:597-598`). -/
noncomputable def logDist (a v : ℚ) : ℝ :=
  |Real.logb 10 (a : ℝ) - Real.logb 10 (v : ℝ)|

/-- The snapping index of `Slider.set_value` (`input_widget.py:596-600`):
`np.argmin(np.abs(np.log10(arr) - np.log10(value)))` in log mode, else
`np.argmin(np.abs(arr - value))`. -/
noncomputable def snapIdx (logscale : Bool) (arr : List ℚ) (v : ℚ) : ℕ :=
  cond logscale (argminIdx (fun a => logDist a v) arr)
    (argminIdx (fun a => absQ (a - v)) arr)

/-- Work items of the fuel-indexed interpreter: emit a box's signal, run a
list of slots, run one slot, iterate a link group's push loop, or perform
`Slider.set_value`. -/
inductive Task where
  | emitB (b : ℕ)
  | runS (slots : List Slot)
  | runOne (s : Slot)
  | linkI (origin g : ℕ) (val : ℚ) (others : List ℕ)
  | setV (b : ℕ) (v : ℚ)

/-- Fuel-indexed interpreter for the reactive engine.  Each recursive call
spends one unit of fuel; with fuel `0` the state is returned unchanged
(concrete scenarios are run with ample fuel).

* `emitB b`: a Qt signal emission — runs the slots connected to `b` at the
  start of the emission, in order.
* `runOne (onChange b)`: `Slider.on_change` (`input_widget.py:593-594`):
  `setattr(variables, current_name, arr[val])` for the current position.
* `runOne (link origin g)`: the `func` closure of `link_boxes`
  (`table_manager.py:169-177`): read `origin.value()` and push it into
  every other box of group `g` that has `g` in its `link_funcs`.
* `linkI`: the `for other_box in boxes` loop body: unbind ALL of the
  receiving box's link callbacks, `set_value(val)`, re-bind them; a push-log
  entry records which link groups were still connected at the push.
* `setV b v`: `Slider.set_value` (`input_widget.py:596-605`): write the
  exact value to the store, disconnect `on_change`, move the slider to the
  snapped position (Qt emits `valueChanged` only if the position actually
  changes), reconnect `on_change`. -/
noncomputable def interp : ℕ → LState → Task → LState
  | 0, st, _ => st
  | fuel + 1, st, Task.emitB b => interp fuel st (Task.runS (st.connections b))
  | _ + 1, st, Task.runS [] => st
  | fuel + 1, st, Task.runS (s :: rest) =>
      interp fuel (interp fuel st (Task.runOne s)) (Task.runS rest)
  | _ + 1, st, Task.runOne (Slot.onChange b) =>
      { st with vars := upd st.vars b ((st.arr b).getD (st.pos b) 0),
                writeCount := upd st.writeCount b (st.writeCount b + 1),
                onChangeCount := upd st.onChangeCount b (st.onChangeCount b + 1) }
  | _ + 1, st, Task.runOne (Slot.linkNoop _ _) => st
  | fuel + 1, st, Task.runOne (Slot.link origin g) =>
      let st1 := { st with
        linkRunCount := upd st.linkRunCount origin (st.linkRunCount origin + 1) }
      interp fuel st1 (Task.linkI origin g (st1.vars origin) (st1.groupBoxes g))
  | _ + 1, st, Task.linkI _ _ _ [] => st
  | fuel + 1, st, Task.linkI origin g val (other :: rest) =>
      if other ≠ origin ∧ g ∈ (st.linkFuncs other).map Prod.fst then
        let st1 := ((st.linkFuncs other).map Prod.snd).foldl
          (fun s f => unbindL s other f) st
        let st2 := { st1 with
          pushLog := st1.pushLog ++ [(g, other, connectedLinkGroups st1 other)] }
        let st3 := interp fuel st2 (Task.setV other val)
        let st4 := ((st3.linkFuncs other).map Prod.snd).foldl
          (fun s f => bindL s other f) st3
        interp fuel st4 (Task.linkI origin g val rest)
      else
        interp fuel st (Task.linkI origin g val rest)
  | fuel + 1, st, Task.setV b v =>
      let st1 := { st with vars := upd st.vars b v,
                           writeCount := upd st.writeCount b (st.writeCount b + 1) }
      let conns := (st1.connections b).filter (· ≠ Slot.onChange b)
      let st2 := { st1 with connections := upd st1.connections b conns }
      let idx := snapIdx (st2.logscale b) (st2.arr b) v
      let st3 := if idx = st2.pos b then st2
                 else interp fuel { st2 with pos := upd st2.pos b idx } (Task.emitB b)
      let conns3 := st3.connections b ++ [Slot.onChange b]
      { st3 with connections := upd st3.connections b conns3 }
  termination_by structural fuel _ _ => fuel

/-- `Slider.set_value` (`input_widget.py:596-605`), as a wrapper around the
interpreter. -/
noncomputable def setValueL (fuel : ℕ) (st : LState) (b : ℕ) (v : ℚ) : LState :=
  interp fuel st (Task.setV b v)

/-- A user-driven change of slider `b` to position `p`: Qt moves the handle
and emits `valueChanged` when (and only when) the position changes. -/
noncomputable def userChange (fuel : ℕ) (st : LState) (b : ℕ) (p : ℕ) : LState :=
  if p = st.pos b then st
  else interp fuel { st with pos := upd st.pos b p } (Task.emitB b)

/-- Python dict assignment `d[k] = v` on an insertion-ordered association
list: overwrite in place if the key exists, else append. -/
def assocSet (l : List (ℕ × Slot)) (k : ℕ) (v : Slot) : List (ℕ × Slot) :=
  if k ∈ l.map Prod.fst then l.map (fun p => if p.fst = k then (k, v) else p)
  else l ++ [(k, v)]

/-- `TableManager.link_boxes` (`table_manager.py:147-181`): bump `n_links`,
then for every box in `boxes` create its propagation closure (a no-op
closure for boxes in `only_update_boxes`), store it in the box's
`link_funcs` dict under the new group id, and bind it to the box. -/
def linkBoxes (st : LState) (boxes : List ℕ) (onlyUpd : List ℕ) : LState :=
  let n := st.nLinks + 1
  let st1 := { st with nLinks := n, groupBoxes := upd st.groupBoxes n boxes }
  boxes.foldl (fun s b =>
    let f := if b ∈ onlyUpd then Slot.linkNoop b n else Slot.link b n
    let s1 := { s with linkFuncs := upd s.linkFuncs b (assocSet (s.linkFuncs b) n f) }
    bindL s1 b f) st1

/-- The state-registration part of `Slider.__init__`
(`input_widget.py:398-476`), restricted to the fields of this model:
record the value array, mode and bounds, connect `on_change` to
`valueChanged` (`input_widget.py:474`), then `set_value(init_value)`
(`input_widget.py:476`).  Table-row placement is modelled separately (see
the table model below); `print_value` is `False`. -/
noncomputable def sliderInitL (fuel : ℕ) (st : LState) (b : ℕ) (arrB : List ℚ)
    (ls : Bool) (mn mx init : ℚ) : LState :=
  let conns := st.connections b ++ [Slot.onChange b]
  let st1 := { st with
    arr := upd st.arr b arrB
    logscale := upd st.logscale b ls
    minV := upd st.minV b mn
    maxV := upd st.maxV b mx
    connections := upd st.connections b conns }
  setValueL fuel st1 b init

/-- The empty engine state (no boxes, no links). -/
def initL : LState :=
  { vars := fun _ => 0, pos := fun _ => 0, arr := fun _ => [],
    logscale := fun _ => false, minV := fun _ => 0, maxV := fun _ => 0,
    connections := fun _ => [], changeFuncs := fun _ => [],
    linkFuncs := fun _ => [], groupBoxes := fun _ => [], nLinks := 0,
    onChangeCount := fun _ => 0, writeCount := fun _ => 0,
    linkRunCount := fun _ => 0, pushLog := [], errs := [] }

/-- Ample fuel for all concrete scenarios in this file. -/
def FUEL : ℕ := 60

/-- Scenario for claims about one link group: three sliders `A = 0`,
`B = 1`, `C = 2` over the array `[0, 1, 2, 3]`, initial value `0`, linked
as one group by `link_boxes([A, B, C])`. -/
noncomputable def scenOne : LState :=
  let s0 := sliderInitL FUEL initL 0 [0, 1, 2, 3] false 0 3 0
  let s1 := sliderInitL FUEL s0 1 [0, 1, 2, 3] false 0 3 0
  let s2 := sliderInitL FUEL s1 2 [0, 1, 2, 3] false 0 3 0
  linkBoxes s2 [0, 1, 2] []

/-- Scenario for the chained-link claims: sliders `A = 0`, `B = 1`,
`C = 2` as in `scenOne`, but linked by `link_boxes([A, B])` followed by
`link_boxes([B, C])` (two distinct groups `1` and `2`). -/
noncomputable def scenChain : LState :=
  let s0 := sliderInitL FUEL initL 0 [0, 1, 2, 3] false 0 3 0
  let s1 := sliderInitL FUEL s0 1 [0, 1, 2, 3] false 0 3 0
  let s2 := sliderInitL FUEL s1 2 [0, 1, 2, 3] false 0 3 0
  linkBoxes (linkBoxes s2 [0, 1] []) [1, 2] []

/-! ## The table row-management model

Embeds `InputTable.add_widget` (`input_widget.py:157-193`),
`InputTable.remove_row` (`input_widget.py:195-224`) and the table-facing
part of the box constructors (the shared "add_widget and init
name&var_name" block, plus the per-frame callback registration of
`RateSlider.__init__`, `input_widget.py:1192-1204`).  Signal
connect/disconnect is modelled by the engine above and is out of scope
here; pixel geometry (`setRowCount`, `resizeEvent`, `setSpan`,
`setCellWidget`) has no observable effect in this model and is elided.
Cell text items (`setItem`) are modelled by the `cells` field. -/

/-- State of one `InputTable` (plus the window-owned `update_funcs` list it
aliases, `input_widget.py:115`).  `boxes` has one entry per allocated row
(`[]` models the empty tuple `()` used for vacated rows); `cells r c` is
the text of the `QTableWidgetItem` at row `r`, column `c` (`""` when
absent); `nextId` is a fresh-id source for widgets and callbacks (a
modelling device standing for Python object identity). -/
structure TableState where
  current_row : ℤ
  boxes : List (List ℕ)
  empty_rows : List ℕ
  input_varnames : List (Option String)
  update_funcs : List ℕ
  cells : ℕ → ℕ → String
  nextId : ℕ

/-- A fresh `InputTable` (`input_widget.py:92-120`): `current_row = -1`,
no boxes, no empty rows. -/
def initT : TableState :=
  { current_row := -1, boxes := [], empty_rows := [], input_varnames := [],
    update_funcs := [], cells := fun _ _ => "", nextId := 0 }

/-- Python `list.sort()` on a list of row indices: stable ascending sort. -/
def sortNat (l : List ℕ) : List ℕ := l.insertionSort (· ≤ ·)

/-- `InputTable.add_widget` (`input_widget.py:157-193`).  Returns the new
table state and the allocated row (or the `ValueError` raised for an
occupied explicit row).  The four branches mirror the source: append at
the frontier when no empty rows exist, else reuse the lowest empty row;
claim an explicitly named empty row; extend the frontier past it for a row
beyond the frontier, marking the skipped rows empty; otherwise raise. -/
def addWidget (t : TableState) (row : Option ℕ) (boxRow : List ℕ) :
    TableState × Except String ℕ :=
  let fresh : TableState × Except String ℕ :=
    if t.empty_rows = [] then
      let cr := t.current_row + 1
      ({ t with current_row := cr, boxes := t.boxes ++ [boxRow] }, .ok cr.toNat)
    else
      let es := sortNat t.empty_rows
      let newRow := es.headD 0
      ({ t with empty_rows := es.erase newRow, boxes := t.boxes.set newRow boxRow },
        .ok newRow)
  match row with
  | none => fresh
  | some r =>
    if (r : ℤ) = t.current_row + 1 then fresh
    else if r ∈ t.empty_rows then
      ({ t with empty_rows := t.empty_rows.erase r, boxes := t.boxes.set r boxRow },
        .ok r)
    else if (r : ℤ) > t.current_row + 1 then
      let k := ((r : ℤ) - t.current_row).toNat
      let newEmpties := (List.range (k - 1)).map (fun i => (t.current_row + 1 + i).toNat)
      ({ t with current_row := (r : ℤ),
                boxes := t.boxes ++ List.replicate (k - 1) [] ++ [boxRow],
                empty_rows := t.empty_rows ++ newEmpties }, .ok r)
    else (t, .error ("row " ++ toString r ++ " is not empty"))

/-- `InputTable.remove_row` (`input_widget.py:195-224`): reject an already
empty or out-of-range row; blank the removed row's cells; shrink the
frontier when removing the last row, else mark the row empty and add it to
the reuse pool.  The callback disconnections of lines 198-202 act on the
signal graph (see the engine model) and touch none of the fields here; in
particular `update_funcs` is left untouched. -/
def removeRow (t : TableState) (r : ℕ) : TableState × Option String :=
  if r ∈ t.empty_rows ∨ (r : ℤ) > t.current_row then
    (t, some ("row " ++ toString r ++ " is already empty."))
  else
    let t1 := { t with cells := fun rr c => if rr = r ∧ c < 3 then "" else t.cells rr c }
    if (r : ℤ) = t.current_row then
      ({ t1 with current_row := t.current_row - 1, boxes := t1.boxes.dropLast }, none)
    else
      ({ t1 with empty_rows := t1.empty_rows ++ [r], boxes := t1.boxes.set r [] }, none)

/-- The table-facing part of `InputTable.Slider.__init__`
(`input_widget.py:395-441`): allocate the row via `add_widget`, then raise
if `name` is empty without a `var_name` (`input_widget.py:414-419`, before
`input_varnames` is appended), else append the variable name
(`input_widget.py:429`) and, when no custom array is given and log scale is
requested with bounds of mixed sign, raise (`input_widget.py:437-441`,
after the append).  The value-array itself and the signal wiring live in
the other models; `np.linspace`/`np.arange` failures for pathological tick
counts are outside this model. -/
def sliderInitT (t : TableState) (name : String) (varName : Option String)
    (logscale : Bool) (mn mx : ℚ) (customArr : Option (List ℚ)) (row : Option ℕ) :
    TableState × Except String ℕ :=
  let selfId := t.nextId
  let boxRow := if name = "" then [selfId] else [selfId + 1, selfId]
  let t0 := { t with nextId := t.nextId + 2 }
  let (t1, res) := addWidget t0 row boxRow
  match res with
  | .error e => (t1, .error e)
  | .ok r =>
    match (if name = "" then varName else some (varName.getD name)) with
    | none => (t1, .error "name can only be empty if var_name is specified")
    | some vn =>
      let t2 := { t1 with input_varnames := t1.input_varnames ++ [some vn] }
      if customArr = none ∧ logscale ∧ mn * mx ≤ 0 then
        (t2, .error
          "`min_value` and `max_value` must have the same sign when `logscale` is enabled.")
      else (t2, .ok r)

/-- The table-facing part of `InputTable.CheckBox.__init__`
(`input_widget.py:623-665`): identical row-allocation and empty-name error
behaviour. -/
def checkBoxInitT (t : TableState) (name : String) (varName : Option String)
    (row : Option ℕ) : TableState × Except String ℕ :=
  let selfId := t.nextId
  let boxRow := if name = "" then [selfId] else [selfId + 1, selfId]
  let t0 := { t with nextId := t.nextId + 2 }
  let (t1, res) := addWidget t0 row boxRow
  match res with
  | .error e => (t1, .error e)
  | .ok r =>
    match (if name = "" then varName else some (varName.getD name)) with
    | none => (t1, .error "name can only be empty if var_name is specified")
    | some vn =>
      ({ t1 with input_varnames := t1.input_varnames ++ [some vn] }, .ok r)

/-- The table-facing part of `InputTable.RateSlider.__init__`
(`input_widget.py:1078-1212`): the box row holds the sub-slider and the
value cell (`input_widget.py:1090-1094`); after the shared name/var_name
block, the per-frame `update_func` is appended to the externally owned
`update_funcs` list (`input_widget.py:1204`).  The value-display cell is a
float-formatted string (`textify`) and is not modelled. -/
def rateSliderInitT (t : TableState) (name : String) (varName : Option String)
    (row : Option ℕ) : TableState × Except String ℕ :=
  let selfId := t.nextId
  let boxRow := if name = "" then [selfId + 1, selfId] else [selfId + 2, selfId + 1, selfId]
  let funcId := selfId + 3
  let t0 := { t with nextId := t.nextId + 4 }
  let (t1, res) := addWidget t0 row boxRow
  match res with
  | .error e => (t1, .error e)
  | .ok r =>
    match (if name = "" then varName else some (varName.getD name)) with
    | none => (t1, .error "name can only be empty if var_name is specified")
    | some vn =>
      let t2 := { t1 with input_varnames := t1.input_varnames ++ [some vn] }
      ({ t2 with update_funcs := t2.update_funcs ++ [funcId] }, .ok r)

/-! ## The `Slider.change_params` model

Embeds `InputTable.Slider.change_params` (`input_widget.py:483-578`) over a
single-slider state.  `np.logspace` and `round(np.emath.logn(...))` compute
with floating-point logarithms whose exact values the embedding cannot fix
over `ℚ`; the model is therefore parametric in them (`FloatFns`), and every
theorem quantifies over the parameter.  The print-callback reordering of
lines 576-578 acts on the signal graph and is out of scope; `printingVal`
tracks the `printing_val` flag itself. -/

/-- The mutable attributes of one `Slider` relevant to `change_params`:
the array-shaping parameters, the value array, the slider position, the
naming state and the variable store (`parent.variables`). -/
structure CPState where
  minV : ℚ
  maxV : ℚ
  nTicks : ℕ
  tickI : Option ℚ
  onlyInts : Bool
  logscale : Bool
  customArr : Option (List ℚ)
  arr : List ℚ
  pos : ℕ
  varName : Option String
  currentName : String
  textLabel : String
  printingVal : Bool
  store : String → ℚ

/-- The keyword arguments accepted by `Slider.change_params`; `none` means
the keyword was not passed.  `tick_interval` and `custom_arr` distinguish
"absent" from "passed as `None`" (hence the nested `Option`). -/
structure CPKwargs where
  name : Option String
  var_name : Option String
  print_value : Option Bool
  min_value : Option ℚ
  max_value : Option ℚ
  n_ticks : Option ℕ
  tick_interval : Option (Option ℚ)
  only_ints : Option Bool
  logscale : Option Bool
  custom_arr : Option (Option (List ℚ))

/-- An empty keyword-argument dictionary. -/
def noKwargs : CPKwargs := ⟨none, none, none, none, none, none, none, none, none, none⟩

/-- The two float-log helpers used by the log-scale branch, left parametric
(see the section comment): `logspace mn mx n` models
`np.logspace(np.log10(mn), np.log10(mx), n)` and `lognRound t q` models
`round(np.emath.logn(t, q))`. -/
structure FloatFns where
  logspace : ℚ → ℚ → ℤ → List ℚ
  lognRound : ℚ → ℚ → ℤ

/-- Python `int()` on a rational: truncation toward zero
(`tick_interval = int(tick_interval)`, `input_widget.py:537`). -/
def ratTrunc (q : ℚ) : ℤ := q.num.tdiv (q.den : ℤ)

/-- `np.linspace(a, b, n)`: `n` evenly spaced samples from `a` to `b`
inclusive (`[]` for `n = 0`, `[a]` for `n = 1`). -/
def linspaceQ (a b : ℚ) (n : ℕ) : List ℚ :=
  if n = 0 then []
  else if n = 1 then [a]
  else (List.range n).map (fun i => a + (b - a) * i / (n - 1))

/-- `np.arange(start, stop, step)`: `start + i * step` for
`0 ≤ i < ⌈(stop - start) / step⌉`.  numpy raises on a zero step; that case
(reachable only through `only_ints` with `tick_interval = 0`) is modelled
as the empty array, which the caller turns into the same
previous-array-retained error. -/
def arangeQ (start stop step : ℚ) : List ℚ :=
  if step = 0 then []
  else (List.range (⌈(stop - start) / step⌉).toNat).map (fun i => start + step * i)

/-- Python truthiness of the stored `tick_interval`
(`if not self.tick_interval`): `None` and `0` are falsy. -/
def truthyQ : Option ℚ → Bool
  | none => false
  | some q => if q = 0 then false else true

/-- The array recomputation of `change_params` (`input_widget.py:523-551`),
reading the already-merged parameters from `s6` (and `kwargs["n_ticks"]`
for the linear branch's sample count). -/
noncomputable def cpNewArr (ff : FloatFns) (s6 : CPState) (k : CPKwargs) :
    Except String (List ℚ) :=
  match s6.customArr with
  | some ca => .ok ca
  | none =>
    if s6.logscale then
      if s6.minV * s6.maxV ≤ 0 then
        .error "min_value and max_value must have the same sign when logscale is enabled."
      else if truthyQ s6.tickI then
        .ok (ff.logspace s6.minV s6.maxV
          (ff.lognRound (s6.tickI.getD 0) (s6.maxV / s6.minV)))
      else .ok (ff.logspace s6.minV s6.maxV (s6.nTicks : ℤ))
    else if s6.onlyInts then
      let ti : ℤ := match s6.tickI with | none => 1 | some tq => ratTrunc tq
      .ok (arangeQ s6.minV (s6.maxV + (ti : ℚ)) (ti : ℚ))
    else
      match s6.tickI with
      | none =>
        let n := match k.n_ticks with | some m => m | none => s6.arr.length
        .ok (linspaceQ s6.minV s6.maxV n)
      | some t => .ok (arangeQ s6.minV (s6.maxV + t) t)

/-- The tail of the `update_arr` block of `change_params`
(`input_widget.py:553-578`): raise on an array-construction error; on an
empty array restore the old array and raise; otherwise install the new
array, re-snap the position to the current value (`setValue` firing
`on_change` exactly when the position changes), and run the deferred
`turn_on_print_func` block. -/
noncomputable def cpFinish (turnOnPrint : Bool) (s6 : CPState) (oldArr : List ℚ)
    (newArrE : Except String (List ℚ)) : CPState × Option String :=
  match newArrE with
  | .error e => (s6, some e)
  | .ok newArr =>
    if newArr = [] then
      ({ s6 with arr := oldArr }, some "Current parameters give an empty array")
    else
      let s7 := { s6 with arr := newArr }
      let currentVal := s7.store s7.currentName
      let sliderVal := snapIdx s7.logscale s7.arr currentVal
      let s8 := { s7 with
        pos := sliderVal
        store := if sliderVal = s7.pos then s7.store
                 else upd s7.store s7.currentName (s7.arr.getD sliderVal 0) }
      (if turnOnPrint then { s8 with printingVal := true } else s8, none)

/-- `Slider.change_params` (`input_widget.py:483-578`).  Returns the state
after the call together with `some errorMessage` when the call raises (the
partially mutated state is kept, as in Python, where the exception
propagates out of a mutated `self`).  Each conditional `setattr` of the
source is folded into its field (same sequential semantics, since no
assignment of the folded block reads a field the same block writes).
Mirrors the source order: label and
`current_name` updates, `print_value` handling, the `tick_interval` reset
when only `n_ticks` is given, the `setattr` loop over the array keywords,
then the array recomputation with its two raises (log-scale sign error;
empty-array rollback), position re-snapping via `setValue` (which fires
`on_change` exactly when the position changes), and finally the
`turn_on_print_func` block (skipped when an exception was raised). -/
noncomputable def changeParams (ff : FloatFns) (s : CPState) (k : CPKwargs) :
    CPState × Option String :=
  let turnOnPrint := match k.print_value with
    | some true => !s.printingVal
    | _ => false
  let s5 : CPState := { s with
    textLabel := match k.name with | some n => n | none => s.textLabel
    currentName := match k.var_name, s.varName, k.name with
      | some vn, _, _ => vn
      | none, some vn, _ => vn
      | none, none, some n => n
      | none, none, none => s.currentName
    printingVal := if k.print_value = some false then false else s.printingVal
    tickI := match k.tick_interval with
      | some t => t
      | none => if k.n_ticks.isSome then none else s.tickI
    minV := k.min_value.getD s.minV
    maxV := k.max_value.getD s.maxV
    nTicks := k.n_ticks.getD s.nTicks
    onlyInts := k.only_ints.getD s.onlyInts
    logscale := k.logscale.getD s.logscale
    customArr := match k.custom_arr with | some c => c | none => s.customArr }
  let updateArr := k.min_value.isSome || k.max_value.isSome || k.n_ticks.isSome ||
    k.tick_interval.isSome || k.only_ints.isSome || k.logscale.isSome || k.custom_arr.isSome
  if updateArr then
    let s6 := { s5 with customArr := match k.custom_arr with | some c => c | none => none }
    cpFinish turnOnPrint s6 s5.arr (cpNewArr ff s6 k)
  else
    (if turnOnPrint then { s5 with printingVal := true } else s5, none)

/-- `Slider.value()` (`input_widget.py:607-608`) for the `change_params`
model: read the store at the current variable name. -/
def valueCP (s : CPState) : ℚ := s.store s.currentName

/-! ## The Dropdown model

Embeds `InputTable.Dropdown` (`input_widget.py:931-1072`): construction,
`on_change` and `set_value`.  Option values are integers here — a
representative non-string value type, since the claims are about
selection-by-value independent of the displayed labels.  Qt emits
`currentTextChanged` when `setCurrentIndex` actually changes the index.
Bound user callbacks and `print_value` are out of scope. -/

/-- State of one `Dropdown`: the caller-supplied option values, the stored
constructor argument `self.option_names` (`none` when not provided,
`input_widget.py:940-941` keeps the original), the widget's current index
and the store variable. -/
structure DState where
  options : List ℤ
  optionNamesArg : Option (List String)
  currentIndex : ℕ
  store : ℤ
  deriving DecidableEq, Repr

/-- `Dropdown.__init__` (`input_widget.py:935-987`): remember `options`
and the original `option_names` argument, select `init_index` and set the
variable to `options[init_index]`. -/
def ddInit (options : List ℤ) (initIndex : ℕ) (optionNames : Option (List String)) :
    DState :=
  { options := options, optionNamesArg := optionNames, currentIndex := initIndex,
    store := options.getD initIndex 0 }

/-- Qt `setCurrentIndex` plus the connected `Dropdown.on_change`
(`input_widget.py:1052-1053`): when the index changes, the signal fires and
`on_change` writes `options[currentIndex]` into the store. -/
def ddSetCurrentIndex (s : DState) (idx : ℕ) : DState :=
  if idx = s.currentIndex then s
  else
    let s1 := { s with currentIndex := idx }
    { s1 with store := s1.options.getD idx 0 }

/-- `Dropdown.set_value` (`input_widget.py:1058-1063`), verbatim control
flow: when `self.option_names is None` the local `option_names` is set to
`self.option_names` — that is, to `None` — and `None.index(value)` raises
`AttributeError`; otherwise the local is `self.options` and the widget is
moved to `options.index(value)` (`ValueError` when absent, as Python's
`list.index` raises). -/
def ddSetValue (s : DState) (v : ℤ) : Except String DState :=
  match s.optionNamesArg with
  | none => .error "AttributeError: NoneType object has no attribute index"
  | some _ =>
    match s.options.findIdx? (fun o => o == v) with
    | none => .error "ValueError: value not in list"
    | some idx => .ok (ddSetCurrentIndex s idx)

/-! ## Integer and integer-list printing and parsing

`InputBox` displays `str(init_value)` (or, for numpy arrays,
`json.dumps(value.tolist())`) and reads it back through the inferred
`type_func` (`ast.literal_eval` or `json.loads`, `helper_funcs.py:333-359`).
For integers and lists of integers — the value domain of the claims —
`str` and `json.dumps` produce the same canonical text (`"[1, 2, 3]"`),
and `ast.literal_eval` and `json.loads` agree on it.  The printers below
model the canonical rendering; the parsers are genuine character-level
parsers for that grammar (an honest restriction of `json.loads` /
`ast.literal_eval` to integer-list documents). -/

/-- Decimal digit value of a character, `none` for non-digits. -/
def digitVal? (c : Char) : Option ℕ :=
  if '0' ≤ c ∧ c ≤ '9' then some (c.toNat - 48) else none

/-- Decimal digits of `n`, least significant first, with explicit fuel
(`fuel ≥ n` suffices; `[]` for `n = 0`). -/
def natDigitsRev : ℕ → ℕ → List ℕ
  | 0, _ => []
  | fuel + 1, n => if n = 0 then [] else n % 10 :: natDigitsRev fuel (n / 10)

/-- Decimal rendering of a natural number as characters (Python `str`). -/
def printNatChars (n : ℕ) : List Char :=
  if n = 0 then ['0'] else ((natDigitsRev n n).map Nat.digitChar).reverse

/-- Decimal rendering of an integer as characters (Python `str`). -/
def intChars (i : ℤ) : List Char :=
  if i < 0 then '-' :: printNatChars i.natAbs else printNatChars i.toNat

/-- Decimal rendering of an integer (Python `str(i)`). -/
def intStr (i : ℤ) : String := ⟨intChars i⟩

/-- The characters after the opening bracket of the canonical rendering of
an integer list: items separated by `", "`, closed by `]` (so `[]` renders
as just `]`). -/
def itemsChars : List ℤ → List Char
  | [] => [']']
  | [i] => intChars i ++ [']']
  | i :: j :: rest => intChars i ++ ',' :: ' ' :: itemsChars (j :: rest)

/-- `json.dumps` of a list of integers — identical to Python
`str([...])`: `"[1, 2, 3]"`. -/
def jsonDumpIntList (l : List ℤ) : String := ⟨'[' :: itemsChars l⟩

/-- The characters after the opening bracket of `str(np.array([...]))`:
items separated by a single space. -/
def ndItemsChars : List ℤ → List Char
  | [] => [']']
  | [i] => intChars i ++ [']']
  | i :: j :: rest => intChars i ++ ' ' :: ndItemsChars (j :: rest)

/-- `str` of a one-dimensional integer numpy array: `"[1 2 3]"`. -/
def ndarrayStr (l : List ℤ) : String := ⟨'[' :: ndItemsChars l⟩

/-- Greedily consume decimal digits, returning their values and the rest. -/
def takeDigits : List Char → List ℕ × List Char
  | [] => ([], [])
  | c :: cs =>
    match digitVal? c with
    | some d =>
      let p := takeDigits cs
      (d :: p.1, p.2)
    | none => ([], c :: cs)

/-- Parse a nonempty run of decimal digits as a natural number
(most-significant first), returning the remainder. -/
def parseNatChars (cs : List Char) : Option (ℕ × List Char) :=
  match takeDigits cs with
  | ([], _) => none
  | (ds, rest) => some (ds.foldl (fun a d => 10 * a + d) 0, rest)

/-- Parse an optionally `-`-signed decimal integer, returning the
remainder. -/
def parseIntChars (cs : List Char) : Option (ℤ × List Char) :=
  match cs with
  | [] => none
  | c :: cs2 =>
    if c = '-' then (parseNatChars cs2).map (fun p => (-(p.1 : ℤ), p.2))
    else (parseNatChars cs).map (fun p => ((p.1 : ℤ), p.2))

/-- Parse the items of a nonempty integer-list document after the opening
bracket: integers separated by `", "`, terminated by a final `]`.  Fuel
bounds the number of items (one unit is spent per item). -/
def parseItems : ℕ → List Char → Option (List ℤ)
  | 0, _ => none
  | fuel + 1, cs =>
    match parseIntChars cs with
    | none => none
    | some (i, rest) =>
      match rest with
      | [] => none
      | c :: rest2 =>
        if c = ']' ∧ rest2 = [] then some [i]
        else if c = ',' then
          match rest2 with
          | c2 :: rest3 => if c2 = ' ' then (parseItems fuel rest3).map (i :: ·) else none
          | [] => none
        else none

/-- Parse an integer-list document (`json.loads` / `ast.literal_eval` on
an integer-list literal): `[]`, or `[` followed by `", "`-separated
integers and `]`. -/
def parseIntListChars (cs : List Char) : Option (List ℤ) :=
  match cs with
  | [] => none
  | c :: rest =>
    if c = '[' then (if rest = [']'] then some [] else parseItems rest.length rest)
    else none

/-- String-level integer-list parser. -/
def parseIntList (s : String) : Option (List ℤ) := parseIntListChars s.toList

/-- String-level integer parser (whole string must be consumed). -/
def parseInt (s : String) : Option ℤ :=
  match parseIntChars s.toList with
  | some (i, []) => some i
  | _ => none

/-! ## The InputBox model

Embeds `InputTable.InputBox.__init__` (`input_widget.py:735-791`) and
`get_type_func` (`helper_funcs.py:333-359`) over the table model.  The
value domain is restricted to integers, integer lists and integer numpy
arrays — the types the claims exercise (`get_type_func` also handles
`str`, `float`, `complex`, `bool`, `dict`, `tuple`, `set` via
`ast.literal_eval` and `range` via a custom parser; those branches assign
the same `ast.literal_eval` function or are unused by the claims). -/

/-- An `init_value` for an `InputBox`: an integer, a list of integers, or
a one-dimensional integer `np.ndarray`. -/
inductive PyVal where
  | pint (n : ℤ)
  | plist (l : List ℤ)
  | pnd (l : List ℤ)
  deriving DecidableEq, Repr

/-- Python `str` of an `init_value` (`QTableWidgetItem(str(init_value))`,
`input_widget.py:772`). -/
def pyStr : PyVal → String
  | .pint n => intStr n
  | .plist l => jsonDumpIntList l
  | .pnd l => ndarrayStr l

/-- The inferred `type_func`: `ast.literal_eval` for primitives and
literal containers, or the `json.loads`-based array parser. -/
inductive TF where
  | lit
  | jsonNd
  deriving DecidableEq, Repr

/-- Apply a `type_func` to cell text.  `ast.literal_eval` on this value
domain yields a list for a list literal and an integer for an integer
literal; the array `type_func` is `lambda s: np.array(json.loads(s))`
(`helper_funcs.py:350`). -/
def applyTF : TF → String → Option PyVal
  | .lit, s =>
    match parseIntList s with
    | some l => some (.plist l)
    | none => (parseInt s).map .pint
  | .jsonNd, s => (parseIntList s).map .pnd

/-- `get_type_func(value, parent, col)` (`helper_funcs.py:333-359`): for
`int`/`list` values return `ast.literal_eval`; for `np.ndarray` values,
overwrite the cell at `(parent.current_row, col)` — the CURRENT frontier
row, not necessarily the box's row — with `json.dumps(value.tolist())`
and return the JSON-based parser. -/
def getTypeFuncT (t : TableState) (v : PyVal) (col : ℕ) : TableState × TF :=
  match v with
  | .pint _ => (t, .lit)
  | .plist _ => (t, .lit)
  | .pnd l =>
    ({ t with cells := fun r c =>
        if r = t.current_row.toNat ∧ c = col then jsonDumpIntList l else t.cells r c },
      .jsonNd)

/-- The table-facing part of `InputTable.InputBox.__init__`
(`input_widget.py:735-791`) with `type_func = None`: allocate the row,
resolve the name/var_name block, write `str(init_value)` into the box's
cell (`input_widget.py:769-772`), then infer the type function via
`get_type_func` (`input_widget.py:777-778`), which for arrays rewrites the
cell at the frontier row.  Returns the box's row, column and inferred type
function. -/
def inputBoxInitT (t : TableState) (name : String) (initV : PyVal)
    (varName : Option String) (row : Option ℕ) :
    TableState × Except String (ℕ × ℕ × TF) :=
  let selfId := t.nextId
  let boxRow := if name = "" then [selfId] else [selfId + 1, selfId]
  let t0 := { t with nextId := t.nextId + 2 }
  let (t1, res) := addWidget t0 row boxRow
  match res with
  | .error e => (t1, .error e)
  | .ok r =>
    match (if name = "" then varName else some (varName.getD name)) with
    | none => (t1, .error "name can only be empty if var_name is specified")
    | some vn =>
      let col := if name = "" then 0 else 1
      let t2 := { t1 with input_varnames := t1.input_varnames ++ [some vn] }
      let t3 := { t2 with cells := fun rr c =>
        if rr = r ∧ c = col then pyStr initV else t2.cells rr c }
      let (t4, tf) := getTypeFuncT t3 initV col
      (t4, .ok (r, col, tf))

/-! ## Invariants and concrete scenario states -/

/-- Well-formedness of a table (the invariants of §row management):
`boxes` has exactly `current_row + 1` entries, `current_row ≥ -1`, the
reuse pool has no duplicates, and every pooled row is in range and vacant
(`()` in the source, `[]` here) — i.e. `empty_rows` is disjoint from the
rows holding active boxes. -/
def TInv (t : TableState) : Prop :=
  t.boxes.length = (t.current_row + 1).toNat
  ∧ -1 ≤ t.current_row
  ∧ t.empty_rows.Nodup
  ∧ ∀ r ∈ t.empty_rows, r < t.boxes.length ∧ t.boxes.getD r [] = []

instance (t : TableState) : Decidable (TInv t) := by
  unfold TInv
  infer_instance

/-- The number of rows currently holding boxes: allocated rows minus the
reuse pool. -/
def activeCount (t : TableState) : ℤ :=
  t.current_row + 1 - t.empty_rows.length

/-- The head of the character list, if any, is not a decimal digit. -/
def noDigitHead (cs : List Char) : Prop :=
  ∀ c, cs.head? = some c → digitVal? c = none

/-- Value of a least-significant-first digit list. -/
def valLSB : List ℕ → ℕ
  | [] => 0
  | d :: ds => d + 10 * valLSB ds

/-- Concrete slider state for the set_value witness: array `[0, 1, 2]`,
bounds `[0, 2]`, linear scale, fresh connections. -/
noncomputable def c4state : LState :=
  { initL with
    arr := upd initL.arr 0 [0, 1, 2]
    maxV := upd initL.maxV 0 2
    connections := upd initL.connections 0 [Slot.onChange 0] }

/-- Concrete `change_params` scenario: a linear slider over
`linspace(0, 10, 11)` with value `5` stored under `"x"`. -/
def cpS0 : CPState :=
  { minV := 0, maxV := 10, nTicks := 11, tickI := none, onlyInts := false,
    logscale := false, customArr := none,
    arr := [0, 1, 2, 3, 4, 5, 6, 7, 8, 9, 10], pos := 5, varName := none,
    currentName := "x", textLabel := "x", printingVal := false,
    store := fun _ => 5 }

/-- Keyword arguments yielding an empty array: `min_value = 5`,
`max_value = 0`, `tick_interval = 1` (`np.arange(5, 1, 1)` is empty). -/
def cpK0 : CPKwargs :=
  { noKwargs with min_value := some 5, max_value := some 0,
                  tick_interval := some (some 1) }

/-- An arbitrary instantiation of the parametric float-log helpers (the
scenarios below never reach the log-scale branch). -/
def anyFF : FloatFns := { logspace := fun _ _ _ => [], lognRound := fun _ _ => 0 }

/-- A table with five active rows `0..4` (five generic one-widget boxes). -/
def tbl5 : TableState :=
  (addWidget (addWidget (addWidget (addWidget (addWidget
    initT none [1]).1 none [2]).1 none [3]).1 none [4]).1 none [5]).1

/-- `tbl5` after `remove_row(2)`. -/
def tblR : TableState := (removeRow tbl5 2).1

/-- A table with two `InputBox` rows (`0` and `1`). -/
def tIB : TableState :=
  (inputBoxInitT (inputBoxInitT initT "a" (PyVal.pint 7) none none).1
    "b" (PyVal.pint 8) none none).1

/-- `tIB` after removing row `0` (so row `0` is in the reuse pool while
`current_row` is still `1`). -/
def tIBr : TableState := (removeRow tIB 0).1

/-- Constructing an `InputBox` with `init_value = np.array([1, 2, 3])`
into `tIBr`: the box reuses row `0`, but `get_type_func` writes its JSON
to `current_row = 1`. -/
def tIB2 : TableState × Except String (ℕ × ℕ × TF) :=
  inputBoxInitT tIBr "c" (PyVal.pnd [1, 2, 3]) none none

/-! ## Helper lemmas -/

theorem getD_map {α β : Type} (f : α → β) (l : List α) (i : ℕ) (d : α) :
    (l.map f).getD i (f d) = f (l.getD i d) := by
  induction l generalizing i with
  | nil => simp
  | cons a rest ih =>
    cases i with
    | zero => simp
    | succ j => simp [ih j]

theorem argminIdx_lt_length {α β : Type} [LinearOrder β] (f : α → β) (l : List α)
    (h : l ≠ []) : argminIdx f l < l.length := by
  have := argminL_lt_length (l.map f) (by simpa using h)
  simpa [argminIdx] using this

theorem argminIdx_spec {α β : Type} [LinearOrder β] (f : α → β) (l : List α) (d : α) :
    ∀ j < l.length, f (l.getD (argminIdx f l) d) ≤ f (l.getD j d) := by
  intro j hj
  have h1 := argminL_min (l.map f) (f d) j (by simpa using hj)
  rw [getD_map, getD_map] at h1
  exact h1

/-- Emitting a signal with no connected slots leaves the state unchanged,
for any fuel. -/
theorem interp_emitB_nil (fuel : ℕ) (st : LState) (b : ℕ)
    (h : st.connections b = []) : interp fuel st (Task.emitB b) = st := by
  cases fuel with
  | zero => rfl
  | succ f =>
    show interp f st (Task.runS (st.connections b)) = st
    rw [h]
    cases f with
    | zero => rfl
    | succ f2 => rfl

@[simp] theorem upd_upd {κ α : Type} [DecidableEq κ] (f : κ → α) (k : κ) (a b : α) :
    upd (upd f k a) k b = upd f k b := by
  funext x
  by_cases h : x = k <;> simp [upd, h]

@[simp] theorem upd_self {κ α : Type} [DecidableEq κ] (f : κ → α) (k : κ) :
    upd f k (f k) = f := by
  funext x
  by_cases h : x = k <;> simp [upd, h]

/-- Characterisation of `Slider.set_value` on a slider whose only
connected slot is its own `on_change`: the store receives the exact value,
the position moves to the snapping index, the on-change handler is never
invoked (it is disconnected around `setValue`), and it ends up connected
again. -/
theorem setV_spec (fuel : ℕ) (st : LState) (b : ℕ) (v : ℚ)
    (hconn : st.connections b = [Slot.onChange b]) :
    interp (fuel + 1) st (Task.setV b v)
      = { st with
          vars := upd st.vars b v
          writeCount := upd st.writeCount b (st.writeCount b + 1)
          connections := upd st.connections b [Slot.onChange b]
          pos := upd st.pos b (snapIdx (st.logscale b) (st.arr b) v) } := by
  have hfil : (st.connections b).filter (· ≠ Slot.onChange b) = [] := by
    rw [hconn]
    simp
  by_cases hidx : snapIdx (st.logscale b) (st.arr b) v = st.pos b
  · simp only [interp, hfil]
    simp only [upd_same, hidx, if_pos rfl]
    simp [upd_self, hidx]
  · have hemit : interp fuel
        { st with
          vars := upd st.vars b v
          writeCount := upd st.writeCount b (st.writeCount b + 1)
          connections := upd st.connections b []
          pos := upd st.pos b (snapIdx (st.logscale b) (st.arr b) v) }
        (Task.emitB b) = _ :=
      interp_emitB_nil fuel _ b (by simp)
    simp only [interp, hfil]
    simp only [upd_same, hidx, if_neg hidx]
    rw [hemit]
    simp

/-! ## Claim C4 -/

/-- C4: for every slider (its own `on_change` connected, nonempty value
array) and every value `v` within `[min_value, max_value]`, after
`set_value(v)` the call `value()` returns exactly `v` (the store receives
the exact requested value, and `on_change` — which would overwrite it with
the snapped entry — is not invoked); the discrete position equals the
first index minimising `|arr[i] - v|` (resp. `|log10 arr[i] - log10 v|` in
log-scale mode), and that index is a genuine minimiser; `on_change` is
connected again afterwards. -/
theorem C4_slider_set_value_snapping
    (fuel : ℕ) (st : LState) (b : ℕ) (v : ℚ)
    (hconn : st.connections b = [Slot.onChange b])
    (_harr : st.arr b ≠ [])
    (_hmin : st.minV b ≤ v) (_hmax : v ≤ st.maxV b) :
    valueL (setValueL (fuel + 1) st b v) b = v
    ∧ (setValueL (fuel + 1) st b v).pos b = snapIdx (st.logscale b) (st.arr b) v
    ∧ (setValueL (fuel + 1) st b v).onChangeCount b = st.onChangeCount b
    ∧ (setValueL (fuel + 1) st b v).connections b = [Slot.onChange b]
    ∧ (st.logscale b = false →
        ∀ j < (st.arr b).length,
          |(st.arr b).getD ((setValueL (fuel + 1) st b v).pos b) 0 - v|
            ≤ |(st.arr b).getD j 0 - v|)
    ∧ (st.logscale b = true →
        ∀ j < (st.arr b).length,
          logDist ((st.arr b).getD ((setValueL (fuel + 1) st b v).pos b) 0) v
            ≤ logDist ((st.arr b).getD j 0) v) := by
  rw [setValueL, setV_spec fuel st b v hconn]
  refine ⟨by simp [valueL], by simp, by rfl, by simp, ?_, ?_⟩
  · intro hls j hj
    have hspec := argminIdx_spec (fun a => absQ (a - v)) (st.arr b) 0 j hj
    beta_reduce at hspec
    rw [absQ_eq_abs, absQ_eq_abs] at hspec
    simpa [snapIdx, hls] using hspec
  · intro hls j hj
    have hspec := argminIdx_spec (fun a => logDist a v) (st.arr b) 0 j hj
    simpa [snapIdx, hls] using hspec

/-- Witness for C4 at a concrete slider: array `[0, 1, 2]`, bounds
`[0, 2]`, `set_value(3/2)`. -/
theorem C4_slider_set_value_snapping_witness :
    (c4state.connections 0 = [Slot.onChange 0] ∧ c4state.arr 0 ≠ []
      ∧ c4state.minV 0 ≤ 3/2 ∧ (3/2 : ℚ) ≤ c4state.maxV 0)
    ∧ (valueL (setValueL 3 c4state 0 (3/2)) 0 = 3/2
      ∧ (setValueL 3 c4state 0 (3/2)).pos 0
          = snapIdx (c4state.logscale 0) (c4state.arr 0) (3/2)
      ∧ (setValueL 3 c4state 0 (3/2)).onChangeCount 0 = c4state.onChangeCount 0
      ∧ (setValueL 3 c4state 0 (3/2)).connections 0 = [Slot.onChange 0]
      ∧ (c4state.logscale 0 = false →
          ∀ j < (c4state.arr 0).length,
            |(c4state.arr 0).getD ((setValueL 3 c4state 0 (3/2)).pos 0) 0 - 3/2|
              ≤ |(c4state.arr 0).getD j 0 - 3/2|)
      ∧ (c4state.logscale 0 = true →
          ∀ j < (c4state.arr 0).length,
            logDist ((c4state.arr 0).getD ((setValueL 3 c4state 0 (3/2)).pos 0) 0) (3/2)
              ≤ logDist ((c4state.arr 0).getD j 0) (3/2))) :=
  ⟨⟨of_decide_eq_true (by with_unfolding_all rfl),
    of_decide_eq_true (by with_unfolding_all rfl),
    of_decide_eq_true (by with_unfolding_all rfl),
    of_decide_eq_true (by with_unfolding_all rfl)⟩,
   C4_slider_set_value_snapping 2 c4state 0 (3/2)
     (of_decide_eq_true (by with_unfolding_all rfl))
     (of_decide_eq_true (by with_unfolding_all rfl))
     (of_decide_eq_true (by with_unfolding_all rfl))
     (of_decide_eq_true (by with_unfolding_all rfl))⟩

/-! ## Claims C1, C2, C3 -/

/-- C1 counterexample: in the one-group scenario (`A = 0`, `B = 1`,
`C = 2` linked by one `link_boxes` call), a user-driven change of A does
set B and C to A's value in a single store write each, but the receiving
boxes' underlying `on_change` handlers are invoked ZERO times during the
propagation (`set_value` disconnects them around `setValue`), so the
count demanded by the claim — exactly one invocation of each receiving
box's on-change handler — is refuted. -/
theorem C1_counterexample :
    (userChange FUEL scenOne 0 2).vars 1 = valueL (userChange FUEL scenOne 0 2) 0
    ∧ (userChange FUEL scenOne 0 2).vars 2 = valueL (userChange FUEL scenOne 0 2) 0
    ∧ (userChange FUEL scenOne 0 2).writeCount 1 = scenOne.writeCount 1 + 1
    ∧ (userChange FUEL scenOne 0 2).writeCount 2 = scenOne.writeCount 2 + 1
    ∧ (userChange FUEL scenOne 0 2).onChangeCount 1 = scenOne.onChangeCount 1
    ∧ (userChange FUEL scenOne 0 2).onChangeCount 2 = scenOne.onChangeCount 2
    ∧ ¬ ((userChange FUEL scenOne 0 2).onChangeCount 1 = scenOne.onChangeCount 1 + 1
        ∧ (userChange FUEL scenOne 0 2).onChangeCount 2 = scenOne.onChangeCount 2 + 1) :=
  of_decide_eq_true (by with_unfolding_all rfl)

/-- C1 (amended): for boxes A, B, C linked as one group, every user-driven
change of A's position sets B and C to A's (exact) value exactly once
each, counted by variable-store writes; the receiving boxes' underlying
on-change handlers are invoked zero times, their link callbacks never run
(no duplicate or recursive propagation), and A's own propagation function
runs exactly once. -/
theorem C1_link_propagation_without_echo :
    ∀ p : Fin 3,
      (userChange FUEL scenOne 0 (p.1 + 1)).vars 1
          = valueL (userChange FUEL scenOne 0 (p.1 + 1)) 0
      ∧ (userChange FUEL scenOne 0 (p.1 + 1)).vars 2
          = valueL (userChange FUEL scenOne 0 (p.1 + 1)) 0
      ∧ (userChange FUEL scenOne 0 (p.1 + 1)).vars 0 = ((p.1 + 1 : ℕ) : ℚ)
      ∧ (userChange FUEL scenOne 0 (p.1 + 1)).writeCount 1 = scenOne.writeCount 1 + 1
      ∧ (userChange FUEL scenOne 0 (p.1 + 1)).writeCount 2 = scenOne.writeCount 2 + 1
      ∧ (userChange FUEL scenOne 0 (p.1 + 1)).onChangeCount 1 = scenOne.onChangeCount 1
      ∧ (userChange FUEL scenOne 0 (p.1 + 1)).onChangeCount 2 = scenOne.onChangeCount 2
      ∧ (userChange FUEL scenOne 0 (p.1 + 1)).linkRunCount 0 = 1
      ∧ (userChange FUEL scenOne 0 (p.1 + 1)).linkRunCount 1 = 0
      ∧ (userChange FUEL scenOne 0 (p.1 + 1)).linkRunCount 2 = 0
      ∧ (userChange FUEL scenOne 0 (p.1 + 1)).errs = [] :=
  of_decide_eq_true (by with_unfolding_all rfl)

/-- Witness for the amended C1 at the concrete drag position `2`. -/
theorem C1_link_propagation_without_echo_witness :
    (userChange FUEL scenOne 0 2).vars 1 = valueL (userChange FUEL scenOne 0 2) 0
    ∧ (userChange FUEL scenOne 0 2).vars 2 = valueL (userChange FUEL scenOne 0 2) 0
    ∧ (userChange FUEL scenOne 0 2).vars 0 = ((2 : ℕ) : ℚ)
    ∧ (userChange FUEL scenOne 0 2).writeCount 1 = scenOne.writeCount 1 + 1
    ∧ (userChange FUEL scenOne 0 2).writeCount 2 = scenOne.writeCount 2 + 1
    ∧ (userChange FUEL scenOne 0 2).onChangeCount 1 = scenOne.onChangeCount 1
    ∧ (userChange FUEL scenOne 0 2).onChangeCount 2 = scenOne.onChangeCount 2
    ∧ (userChange FUEL scenOne 0 2).linkRunCount 0 = 1
    ∧ (userChange FUEL scenOne 0 2).linkRunCount 1 = 0
    ∧ (userChange FUEL scenOne 0 2).linkRunCount 2 = 0
    ∧ (userChange FUEL scenOne 0 2).errs = [] :=
  C1_link_propagation_without_echo ⟨1, by decide⟩

/-- C2 counterexample: in the chained scenario (`link_boxes([A, B])` then
`link_boxes([B, C])`), pushing A's value into B under group 1 records a
push-log entry showing NO link callback of B connected at the moment of
the push — B's group-2 callback was disconnected too, refuting the claim
that only the currently-firing group's callback is suspended. -/
theorem C2_counterexample :
    (userChange FUEL scenChain 0 2).pushLog = [(1, 1, [])]
    ∧ (scenChain.linkFuncs 1).map Prod.fst = [1, 2]
    ∧ ¬ (∀ e ∈ (userChange FUEL scenChain 0 2).pushLog,
          e.2.2 = (((userChange FUEL scenChain 0 2).linkFuncs e.2.1).map Prod.fst).filter
            (fun g => g != e.1)) :=
  of_decide_eq_true (by with_unfolding_all rfl)

/-- C2 (amended): while a link group's propagation function pushes a value
into a receiving box, ALL of that box's link callbacks — for every group
it belongs to, not only the firing group — are temporarily disconnected
(none are connected at the moment of the push), and all of them are
connected again once the propagation finishes. -/
theorem C2_reentrancy_disconnects_all_link_callbacks :
    ∀ p : Fin 3,
      (∀ e ∈ (userChange FUEL scenChain 0 (p.1 + 1)).pushLog, e.2.2 = ([] : List ℕ))
      ∧ (userChange FUEL scenChain 0 (p.1 + 1)).pushLog = [(1, 1, [])]
      ∧ (userChange FUEL scenChain 0 (p.1 + 1)).connections 1
          = [Slot.onChange 1, Slot.link 1 1, Slot.link 1 2]
      ∧ (userChange FUEL scenChain 0 (p.1 + 1)).changeFuncs 1
          = [Slot.link 1 1, Slot.link 1 2]
      ∧ (userChange FUEL scenChain 0 (p.1 + 1)).errs = [] :=
  of_decide_eq_true (by with_unfolding_all rfl)

/-- Witness for the amended C2 at the concrete drag position `2`. -/
theorem C2_reentrancy_disconnects_all_link_callbacks_witness :
    (∀ e ∈ (userChange FUEL scenChain 0 2).pushLog, e.2.2 = ([] : List ℕ))
    ∧ (userChange FUEL scenChain 0 2).pushLog = [(1, 1, [])]
    ∧ (userChange FUEL scenChain 0 2).connections 1
        = [Slot.onChange 1, Slot.link 1 1, Slot.link 1 2]
    ∧ (userChange FUEL scenChain 0 2).changeFuncs 1
        = [Slot.link 1 1, Slot.link 1 2]
    ∧ (userChange FUEL scenChain 0 2).errs = [] :=
  C2_reentrancy_disconnects_all_link_callbacks ⟨1, by decide⟩

/-- C3: with A–B linked as group 1 and B–C separately linked as group 2,
every user-driven change of A updates B to A's value and leaves C
unchanged, and every user-driven change of C updates B to C's value and
leaves A unchanged (link groups are not transitive). -/
theorem C3_chained_links_not_transitive :
    ∀ p : Fin 3,
      (userChange FUEL scenChain 0 (p.1 + 1)).vars 1
          = valueL (userChange FUEL scenChain 0 (p.1 + 1)) 0
      ∧ (userChange FUEL scenChain 0 (p.1 + 1)).vars 0 = ((p.1 + 1 : ℕ) : ℚ)
      ∧ (userChange FUEL scenChain 0 (p.1 + 1)).vars 2 = scenChain.vars 2
      ∧ (userChange FUEL scenChain 2 (p.1 + 1)).vars 1
          = valueL (userChange FUEL scenChain 2 (p.1 + 1)) 2
      ∧ (userChange FUEL scenChain 2 (p.1 + 1)).vars 2 = ((p.1 + 1 : ℕ) : ℚ)
      ∧ (userChange FUEL scenChain 2 (p.1 + 1)).vars 0 = scenChain.vars 0 :=
  of_decide_eq_true (by with_unfolding_all rfl)

/-- Witness for C3 at the concrete drag position `2`. -/
theorem C3_chained_links_not_transitive_witness :
    (userChange FUEL scenChain 0 2).vars 1 = valueL (userChange FUEL scenChain 0 2) 0
    ∧ (userChange FUEL scenChain 0 2).vars 0 = ((2 : ℕ) : ℚ)
    ∧ (userChange FUEL scenChain 0 2).vars 2 = scenChain.vars 2
    ∧ (userChange FUEL scenChain 2 2).vars 1 = valueL (userChange FUEL scenChain 2 2) 2
    ∧ (userChange FUEL scenChain 2 2).vars 2 = ((2 : ℕ) : ℚ)
    ∧ (userChange FUEL scenChain 2 2).vars 0 = scenChain.vars 0 :=
  C3_chained_links_not_transitive ⟨1, by decide⟩

/-! ## Printer/parser round-trip lemmas -/

theorem digitVal?_digitChar : ∀ d : ℕ, d < 10 → digitVal? (Nat.digitChar d) = some d := by
  decide

theorem takeDigits_nondigit (rest : List Char) (hrest : noDigitHead rest) :
    takeDigits rest = ([], rest) := by
  cases rest with
  | nil => rfl
  | cons c cs =>
    have hc : digitVal? c = none := hrest c rfl
    simp [takeDigits, hc]

theorem takeDigits_append (ds : List ℕ) (hds : ∀ d ∈ ds, d < 10) (rest : List Char)
    (hrest : noDigitHead rest) :
    takeDigits (ds.map Nat.digitChar ++ rest) = (ds, rest) := by
  induction ds with
  | nil =>
    simpa using takeDigits_nondigit rest hrest
  | cons d ds ih =>
    have hd : digitVal? (Nat.digitChar d) = some d := digitVal?_digitChar d (hds d (by simp))
    have ih2 := ih (fun x hx => hds x (by simp [hx]))
    simp [takeDigits, hd, ih2]

theorem reverse_foldl_valLSB (l : List ℕ) :
    l.reverse.foldl (fun a d => 10 * a + d) 0 = valLSB l := by
  induction l with
  | nil => rfl
  | cons d ds ih =>
    rw [List.reverse_cons, List.foldl_append, ih]
    show 10 * valLSB ds + d = valLSB (d :: ds)
    simp [valLSB]
    omega

theorem valLSB_natDigitsRev : ∀ fuel n, n ≤ fuel → valLSB (natDigitsRev fuel n) = n := by
  intro fuel
  induction fuel with
  | zero =>
    intro n h
    have : n = 0 := by omega
    subst this
    rfl
  | succ f ih =>
    intro n h
    by_cases hn : n = 0
    · subst hn
      simp [natDigitsRev, valLSB]
    · rw [show natDigitsRev (f + 1) n = n % 10 :: natDigitsRev f (n / 10) from by
        simp [natDigitsRev, hn]]
      have hdiv : n / 10 < n := Nat.div_lt_self (by omega) (by norm_num)
      simp only [valLSB]
      rw [ih (n / 10) (by omega)]
      omega

theorem natDigitsRev_lt_ten : ∀ fuel n d, d ∈ natDigitsRev fuel n → d < 10 := by
  intro fuel
  induction fuel with
  | zero => intro n d hd; simp [natDigitsRev] at hd
  | succ f ih =>
    intro n d hd
    by_cases hn : n = 0
    · subst hn; simp [natDigitsRev] at hd
    · rw [show natDigitsRev (f + 1) n = n % 10 :: natDigitsRev f (n / 10) from by
        simp [natDigitsRev, hn]] at hd
      rcases List.mem_cons.mp hd with h | h
      · subst h; exact Nat.mod_lt _ (by norm_num)
      · exact ih _ _ h

theorem natDigitsRev_ne_nil (f n : ℕ) (hn : 0 < n) : natDigitsRev (f + 1) n ≠ [] := by
  simp [natDigitsRev, Nat.pos_iff_ne_zero.mp hn]

theorem printNatChars_ne_nil (n : ℕ) : printNatChars n ≠ [] := by
  by_cases hn : n = 0
  · simp [printNatChars, hn]
  · have h1 : natDigitsRev n n ≠ [] := by
      cases n with
      | zero => omega
      | succ m => exact natDigitsRev_ne_nil m (m + 1) (Nat.succ_pos m)
    simp [printNatChars, hn, h1]

theorem parseNat_print (n : ℕ) (rest : List Char) (hrest : noDigitHead rest) :
    parseNatChars (printNatChars n ++ rest) = some (n, rest) := by
  by_cases hn : n = 0
  · subst hn
    show parseNatChars ('0' :: rest) = some (0, rest)
    have h0 : digitVal? '0' = some 0 := by decide
    have ht := takeDigits_nondigit rest hrest
    simp [parseNatChars, takeDigits, h0, ht]
  · have hprint : printNatChars n = ((natDigitsRev n n).reverse).map Nat.digitChar := by
      simp [printNatChars, hn, List.map_reverse]
    have hmem : ∀ d ∈ (natDigitsRev n n).reverse, d < 10 := by
      intro d hd
      exact natDigitsRev_lt_ten n n d (List.mem_reverse.mp hd)
    have htake := takeDigits_append ((natDigitsRev n n).reverse) hmem rest hrest
    have hne : (natDigitsRev n n).reverse ≠ [] := by
      have h1 : natDigitsRev n n ≠ [] := by
        cases n with
        | zero => omega
        | succ m => exact natDigitsRev_ne_nil m (m + 1) (Nat.succ_pos m)
      simpa using h1
    obtain ⟨d, ds, hcons⟩ := List.exists_cons_of_ne_nil hne
    rw [hprint]
    unfold parseNatChars
    rw [htake, hcons]
    have hval : (d :: ds).foldl (fun a x => 10 * a + x) 0 = n := by
      rw [← hcons, reverse_foldl_valLSB, valLSB_natDigitsRev n n le_rfl]
    simp [hval]

theorem printNatChars_head_digit (n : ℕ) :
    ∃ c cs, printNatChars n = c :: cs ∧ ∃ d, digitVal? c = some d := by
  by_cases hn : n = 0
  · exact ⟨'0', [], by simp [printNatChars, hn], 0, by decide⟩
  · have hprint : printNatChars n = ((natDigitsRev n n).reverse).map Nat.digitChar := by
      simp [printNatChars, hn, List.map_reverse]
    have hne : (natDigitsRev n n).reverse ≠ [] := by
      have h1 : natDigitsRev n n ≠ [] := by
        cases n with
        | zero => omega
        | succ m => exact natDigitsRev_ne_nil m (m + 1) (Nat.succ_pos m)
      simpa using h1
    obtain ⟨d, ds, hcons⟩ := List.exists_cons_of_ne_nil hne
    refine ⟨Nat.digitChar d, ds.map Nat.digitChar, by rw [hprint, hcons]; rfl, d, ?_⟩
    apply digitVal?_digitChar
    exact natDigitsRev_lt_ten n n d (List.mem_reverse.mp (hcons ▸ List.mem_cons_self d ds))

theorem parseInt_print (i : ℤ) (rest : List Char) (hrest : noDigitHead rest) :
    parseIntChars (intChars i ++ rest) = some (i, rest) := by
  by_cases hi : i < 0
  · have hic : intChars i = '-' :: printNatChars i.natAbs := by simp [intChars, hi]
    rw [hic]
    rw [show parseIntChars (('-' :: printNatChars i.natAbs) ++ rest)
        = Option.map (fun p => (-(p.1 : ℤ), p.2))
            (parseNatChars (printNatChars i.natAbs ++ rest)) from rfl]
    rw [parseNat_print i.natAbs rest hrest]
    simp only [Option.map_some']
    have h2 : (-((i.natAbs : ℕ) : ℤ)) = i := by omega
    rw [h2]
  · obtain ⟨c, cs, hc, d, hd⟩ := printNatChars_head_digit i.toNat
    have hic : intChars i = printNatChars i.toNat := by simp [intChars, hi]
    have hcd : c ≠ '-' := by
      intro h
      rw [h] at hd
      have : digitVal? '-' = none := by decide
      simp [this] at hd
    have hp := parseNat_print i.toNat rest hrest
    rw [hc] at hp
    rw [hic, hc]
    rw [show parseIntChars ((c :: cs) ++ rest)
        = (if c = '-' then
            Option.map (fun p => (-(p.1 : ℤ), p.2)) (parseNatChars (cs ++ rest))
          else Option.map (fun p => ((p.1 : ℤ), p.2))
            (parseNatChars (c :: cs ++ rest))) from rfl]
    rw [if_neg hcd, hp]
    simp only [Option.map_some']
    have h2 : ((i.toNat : ℕ) : ℤ) = i := by omega
    rw [h2]

theorem intChars_ne_nil (i : ℤ) : intChars i ≠ [] := by
  by_cases hi : i < 0
  · simp [intChars, hi]
  · simp [intChars, hi, printNatChars_ne_nil]

theorem itemsChars_length_ge_two (l : List ℤ) (hl : l ≠ []) :
    2 ≤ (itemsChars l).length := by
  match l with
  | [i] =>
    have := intChars_ne_nil i
    have : 1 ≤ (intChars i).length := List.length_pos.mpr this
    simp only [itemsChars, List.length_append, List.length_cons, List.length_nil]
    omega
  | i :: j :: tl =>
    simp only [itemsChars, List.length_append, List.length_cons]
    omega

theorem itemsChars_length_ge_list (l : List ℤ) : l.length ≤ (itemsChars l).length := by
  match l with
  | [] => simp [itemsChars]
  | [i] =>
    have : 1 ≤ (intChars i).length := List.length_pos.mpr (intChars_ne_nil i)
    simp only [itemsChars, List.length_append, List.length_cons, List.length_nil]
    omega
  | i :: j :: tl =>
    have ih := itemsChars_length_ge_list (j :: tl)
    have : 1 ≤ (intChars i).length := List.length_pos.mpr (intChars_ne_nil i)
    simp only [itemsChars, List.length_append, List.length_cons] at ih ⊢
    omega

theorem parseItems_itemsChars (l : List ℤ) (hl : l ≠ []) :
    ∀ fuel, l.length ≤ fuel → parseItems fuel (itemsChars l) = some l := by
  induction l with
  | nil => simp at hl
  | cons i tl ih =>
    intro fuel hfuel
    cases fuel with
    | zero => simp at hfuel
    | succ f =>
      cases tl with
      | nil =>
        show parseItems (f + 1) (intChars i ++ [']']) = some [i]
        have hnd : noDigitHead [']'] := by
          intro c hc
          simp at hc
          subst hc
          decide
        unfold parseItems
        rw [parseInt_print i [']'] hnd]
        simp
      | cons j tl2 =>
        show parseItems (f + 1) (intChars i ++ ',' :: ' ' :: itemsChars (j :: tl2))
            = some (i :: j :: tl2)
        have hnd : noDigitHead (',' :: ' ' :: itemsChars (j :: tl2)) := by
          intro c hc
          simp at hc
          subst hc
          decide
        unfold parseItems
        rw [parseInt_print i _ hnd]
        have hrec := ih (by simp) f (by simp at hfuel ⊢; omega)
        simp [hrec]

/-- Printing an integer list canonically (`json.dumps` / Python `str`)
and parsing it back (`json.loads` / `ast.literal_eval`) is the
identity. -/
theorem parse_dump (l : List ℤ) : parseIntList (jsonDumpIntList l) = some l := by
  cases l with
  | nil => rfl
  | cons i tl =>
    show parseIntListChars ('[' :: itemsChars (i :: tl)) = some (i :: tl)
    have hne : itemsChars (i :: tl) ≠ [']'] := by
      intro h
      have := itemsChars_length_ge_two (i :: tl) (by simp)
      rw [h] at this
      simp at this
    rw [show parseIntListChars ('[' :: itemsChars (i :: tl))
        = (if itemsChars (i :: tl) = [']'] then some []
           else parseItems (itemsChars (i :: tl)).length (itemsChars (i :: tl))) from rfl]
    rw [if_neg hne]
    exact parseItems_itemsChars (i :: tl) (by simp) _ (itemsChars_length_ge_list (i :: tl))

/-! ## Claim C9 -/

/-- C9 counterexample: constructing an `InputBox` with
`init_value = np.array([1, 2, 3])` into a table whose row `0` was removed
(so the box reuses row `0` while `current_row = 1`): the box's displayed
cell keeps the native repr `"[1 2 3]"`, which is not valid JSON and on
which the inferred type function fails — `get_type_func` wrote the JSON
text into row `1` (the frontier row) instead, clobbering that row's
cell. -/
theorem C9_counterexample :
    tIB2.2 = .ok (0, 1, TF.jsonNd)
    ∧ tIB2.1.cells 0 1 = "[1 2 3]"
    ∧ parseIntList "[1 2 3]" = none
    ∧ applyTF TF.jsonNd (tIB2.1.cells 0 1) = none
    ∧ tIB2.1.cells 1 1 = "[1, 2, 3]"
    ∧ tIBr.cells 1 1 = "8" :=
  of_decide_eq_true (by with_unfolding_all rfl)

/-- C9 (amended): constructing an `InputBox` with `init_value = [1, 2, 3]`
and no `type_func` and applying the inferred type function to the
displayed cell text yields the list `[1, 2, 3]`; and for an integer
ndarray `init_value`, PROVIDED the box is appended at the frontier (no
reusable empty rows, the default allocation), the displayed cell text is
the JSON rendering of the array, it is valid JSON, and the inferred type
function parses it back to an equal array.  (In a reused row the JSON is
written to the frontier row instead — see the counterexample.) -/
theorem C9_inputbox_roundtrip :
    ((inputBoxInitT initT "b" (PyVal.plist [1, 2, 3]) none none).2 = .ok (0, 1, TF.lit)
      ∧ applyTF TF.lit ((inputBoxInitT initT "b" (PyVal.plist [1, 2, 3]) none none).1.cells 0 1)
          = some (PyVal.plist [1, 2, 3]))
    ∧ (∀ (t : TableState) (l : List ℤ) (name : String) (vn : Option String),
        t.empty_rows = [] → ¬(name = "" ∧ vn = none) →
        ∃ r col,
          (inputBoxInitT t name (PyVal.pnd l) vn none).2 = .ok (r, col, TF.jsonNd)
          ∧ (inputBoxInitT t name (PyVal.pnd l) vn none).1.cells r col = jsonDumpIntList l
          ∧ parseIntList ((inputBoxInitT t name (PyVal.pnd l) vn none).1.cells r col)
              = some l
          ∧ applyTF TF.jsonNd ((inputBoxInitT t name (PyVal.pnd l) vn none).1.cells r col)
              = some (PyVal.pnd l)) := by
  constructor
  · exact of_decide_eq_true (by with_unfolding_all rfl)
  · intro t l name vn hempty hname
    refine ⟨(t.current_row + 1).toNat, if name = "" then 0 else 1, ?_⟩
    by_cases hn : name = ""
    · match vn, hname with
      | some v, _ =>
        simp only [inputBoxInitT, addWidget, hempty, hn, if_pos rfl, getTypeFuncT]
        refine ⟨rfl, ?_, ?_, ?_⟩
        · simp
        · simp [parse_dump]
        · simp [applyTF, parse_dump]
      | none, hname => exact absurd ⟨hn, rfl⟩ hname
    · simp only [inputBoxInitT, addWidget, hempty, hn, if_neg hn, if_pos rfl, getTypeFuncT]
      cases vn with
      | none =>
        refine ⟨rfl, ?_, ?_, ?_⟩
        · simp
        · simp [parse_dump]
        · simp [applyTF, parse_dump]
      | some v =>
        refine ⟨rfl, ?_, ?_, ?_⟩
        · simp
        · simp [parse_dump]
        · simp [applyTF, parse_dump]

/-- Witness for the amended C9: an ndarray box appended to a fresh
table. -/
theorem C9_inputbox_roundtrip_witness :
    initT.empty_rows = [] ∧ ¬(("c" : String) = "" ∧ (none : Option String) = none)
    ∧ ∃ r col,
        (inputBoxInitT initT "c" (PyVal.pnd [4, 5]) none none).2 = .ok (r, col, TF.jsonNd)
        ∧ (inputBoxInitT initT "c" (PyVal.pnd [4, 5]) none none).1.cells r col
            = jsonDumpIntList [4, 5]
        ∧ parseIntList ((inputBoxInitT initT "c" (PyVal.pnd [4, 5]) none none).1.cells r col)
            = some [4, 5]
        ∧ applyTF TF.jsonNd ((inputBoxInitT initT "c" (PyVal.pnd [4, 5]) none none).1.cells r col)
            = some (PyVal.pnd [4, 5]) :=
  ⟨rfl, by simp,
    C9_inputbox_roundtrip.2 initT [4, 5] "c" none rfl (by simp)⟩

/-! ## Claims C7 and C8 -/

/-- C7: constructing a `RateSlider` appends exactly one per-frame callback
to the externally owned `update_funcs` list — but `remove_row` never
touches `update_funcs`, so after `remove()` the callback is STILL in the
list (the per-frame driver keeps invoking it).  The final conjunct is the
general fact: `remove_row` leaves `update_funcs` unchanged for every table
and row. -/
theorem C7_rate_slider_update_func_leak :
    (rateSliderInitT initT "r" none none).1.update_funcs = [3]
    ∧ (rateSliderInitT initT "r" none none).2 = .ok 0
    ∧ (removeRow (rateSliderInitT initT "r" none none).1 0).2 = none
    ∧ (removeRow (rateSliderInitT initT "r" none none).1 0).1.update_funcs = [3]
    ∧ (∀ (t : TableState) (r : ℕ), (removeRow t r).1.update_funcs = t.update_funcs) := by
  refine ⟨by decide, by decide, by decide, by decide, ?_⟩
  intro t r
  unfold removeRow
  by_cases h : r ∈ t.empty_rows ∨ (r : ℤ) > t.current_row
  · rw [if_pos h]
  · rw [if_neg h]
    by_cases h2 : (r : ℤ) = t.current_row
    · rw [if_pos h2]
    · rw [if_neg h2]

/-- C8: `Dropdown.set_value`.  When `option_names` was NOT provided at
construction, the stored `self.option_names` is `None` and
`set_value` raises `AttributeError` (`None.index(value)`): the failing
input of the claim.  When `option_names` WAS provided explicitly,
`set_value(v)` moves the selection to the index of `v` in `options` and
`on_change` leaves the store equal to `v`. -/
theorem C8_dropdown_set_value :
    ddSetValue (ddInit [1, 2, 3] 0 none) 2
        = .error "AttributeError: NoneType object has no attribute index"
    ∧ ddSetValue (ddInit [10, 20] 0 (some ["a", "b"])) 20
        = .ok { options := [10, 20], optionNamesArg := some ["a", "b"],
                currentIndex := 1, store := 20 }
    ∧ (∀ (opts : List ℤ) (i0 : ℕ) (v : ℤ), v ∈ opts →
        ddSetValue (ddInit opts i0 none) v
          = .error "AttributeError: NoneType object has no attribute index") := by
  refine ⟨by decide, by decide, ?_⟩
  intro opts i0 v hv
  rfl

/-- Witness for the general part of C8 (a hypothesis-bearing conjunct):
membership discharged at `2 ∈ [1, 2, 3]`. -/
theorem C8_dropdown_set_value_witness :
    (2 : ℤ) ∈ ([1, 2, 3] : List ℤ)
    ∧ ddSetValue (ddInit [1, 2, 3] 0 none) 2
        = .error "AttributeError: NoneType object has no attribute index" :=
  ⟨by decide, C8_dropdown_set_value.2.2 [1, 2, 3] 0 2 (by decide)⟩

/-! ## Claim C5 -/

/-- On any error result, `cpFinish` returns the pre-call state: the error
branch returns `s6` directly and the empty-array branch restores the old
array into `s6` (which is `s6` itself when `oldArr` is `s6`'s array). -/
theorem cpFinish_err_state (tp : Bool) (s6 : CPState) (oldArr : List ℚ)
    (E : Except String (List ℚ)) (m : String) (hold : s6.arr = oldArr)
    (h : (cpFinish tp s6 oldArr E).2 = some m) :
    (cpFinish tp s6 oldArr E).1 = s6 := by
  subst hold
  cases E with
  | error e => rfl
  | ok na =>
    by_cases hna : na = []
    · subst hna
      with_unfolding_all rfl
    · exfalso
      simp only [cpFinish] at h
      rw [if_neg hna] at h
      exact Option.noConfusion h

/-- C5 counterexample: reconfiguring the concrete slider `cpS0` with
`min_value = 5, max_value = 0, tick_interval = 1` yields an empty array,
so `change_params` raises and retains the previous array and value — but
the slider state IS mutated on this error path: `min_value`, `max_value`
and `tick_interval` keep the new values, refuting the claim's "no state of
the slider is mutated" (atomic update). -/
theorem C5_counterexample :
    (changeParams anyFF cpS0 cpK0).2 = some "Current parameters give an empty array"
    ∧ (changeParams anyFF cpS0 cpK0).1.arr = cpS0.arr
    ∧ valueCP (changeParams anyFF cpS0 cpK0).1 = valueCP cpS0
    ∧ (changeParams anyFF cpS0 cpK0).1.minV = 5 ∧ cpS0.minV = 0
    ∧ (changeParams anyFF cpS0 cpK0).1.maxV = 0 ∧ cpS0.maxV = 10
    ∧ (changeParams anyFF cpS0 cpK0).1.tickI = some 1 ∧ cpS0.tickI = none
    ∧ ¬ ((changeParams anyFF cpS0 cpK0).1 = cpS0) := by
  refine ⟨of_decide_eq_true (by with_unfolding_all rfl),
    of_decide_eq_true (by with_unfolding_all rfl),
    of_decide_eq_true (by with_unfolding_all rfl),
    of_decide_eq_true (by with_unfolding_all rfl),
    of_decide_eq_true (by with_unfolding_all rfl),
    of_decide_eq_true (by with_unfolding_all rfl),
    of_decide_eq_true (by with_unfolding_all rfl),
    of_decide_eq_true (by with_unfolding_all rfl),
    of_decide_eq_true (by with_unfolding_all rfl), ?_⟩
  intro h
  have h1 : (changeParams anyFF cpS0 cpK0).1.minV = 5 :=
    of_decide_eq_true (by with_unfolding_all rfl)
  rw [h] at h1
  have h2 : cpS0.minV = 0 := of_decide_eq_true (by with_unfolding_all rfl)
  rw [h2] at h1
  exact absurd h1 (by norm_num)

/-- C5 (amended): when `change_params` (with no renaming or print-flag
keywords, on a slider whose `current_name` agrees with its `var_name`)
raises the empty-array error, the previous discrete array is retained,
the slider position and the variable store are untouched, and `value()`
returns the same value as before the call — but the array-shaping
parameters (`min_value`, `max_value`, `only_ints`, `logscale`) DO keep
the newly assigned values: only the array itself is rolled back, the
update is not atomic. -/
theorem C5_changeparams_empty_array_rollback (ff : FloatFns) (s : CPState) (k : CPKwargs)
    (hname : k.name = none) (hvar : k.var_name = none) (hprint : k.print_value = none)
    (hcn : s.varName = none ∨ s.varName = some s.currentName)
    (herr : (changeParams ff s k).2 = some "Current parameters give an empty array") :
    (changeParams ff s k).1.arr = s.arr
    ∧ (changeParams ff s k).1.pos = s.pos
    ∧ (changeParams ff s k).1.store = s.store
    ∧ (changeParams ff s k).1.currentName = s.currentName
    ∧ valueCP (changeParams ff s k).1 = valueCP s
    ∧ (changeParams ff s k).1.printingVal = s.printingVal
    ∧ (changeParams ff s k).1.minV = k.min_value.getD s.minV
    ∧ (changeParams ff s k).1.maxV = k.max_value.getD s.maxV
    ∧ (changeParams ff s k).1.onlyInts = k.only_ints.getD s.onlyInts
    ∧ (changeParams ff s k).1.logscale = k.logscale.getD s.logscale := by
  by_cases hup : (k.min_value.isSome || k.max_value.isSome || k.n_ticks.isSome ||
      k.tick_interval.isSome || k.only_ints.isSome || k.logscale.isSome ||
      k.custom_arr.isSome) = true
  · rcases hcn with h | h <;>
    · simp only [changeParams, hname, hvar, hprint, h, hup, if_pos] at herr ⊢
      have hfin := cpFinish_err_state _ _ _ _ _ rfl herr
      rw [hfin]
      exact ⟨rfl, rfl, rfl, rfl, rfl, rfl, rfl, rfl, rfl, rfl⟩
  · exfalso
    rcases hcn with h | h <;>
    · rw [Bool.not_eq_true] at hup
      simp [changeParams, hname, hvar, hprint, h, hup] at herr

/-- Witness for the amended C5 at the concrete scenario of the
counterexample. -/
theorem C5_changeparams_empty_array_rollback_witness :
    (cpK0.name = none ∧ cpK0.var_name = none ∧ cpK0.print_value = none
      ∧ (cpS0.varName = none ∨ cpS0.varName = some cpS0.currentName)
      ∧ (changeParams anyFF cpS0 cpK0).2 = some "Current parameters give an empty array")
    ∧ ((changeParams anyFF cpS0 cpK0).1.arr = cpS0.arr
      ∧ (changeParams anyFF cpS0 cpK0).1.pos = cpS0.pos
      ∧ (changeParams anyFF cpS0 cpK0).1.store = cpS0.store
      ∧ (changeParams anyFF cpS0 cpK0).1.currentName = cpS0.currentName
      ∧ valueCP (changeParams anyFF cpS0 cpK0).1 = valueCP cpS0
      ∧ (changeParams anyFF cpS0 cpK0).1.printingVal = cpS0.printingVal
      ∧ (changeParams anyFF cpS0 cpK0).1.minV = cpK0.min_value.getD cpS0.minV
      ∧ (changeParams anyFF cpS0 cpK0).1.maxV = cpK0.max_value.getD cpS0.maxV
      ∧ (changeParams anyFF cpS0 cpK0).1.onlyInts = cpK0.only_ints.getD cpS0.onlyInts
      ∧ (changeParams anyFF cpS0 cpK0).1.logscale = cpK0.logscale.getD cpS0.logscale) :=
  ⟨⟨rfl, rfl, rfl, Or.inl rfl, of_decide_eq_true (by with_unfolding_all rfl)⟩,
    C5_changeparams_empty_array_rollback anyFF cpS0 cpK0 rfl rfl rfl (Or.inl rfl)
      (of_decide_eq_true (by with_unfolding_all rfl))⟩

/-! ## Claims C6 and C10: row allocation -/

/-- `getD` at the old length of a one-element append returns the appended
element. -/
theorem getD_append_length {α : Type} (l : List α) (a d : α) :
    (l ++ [a]).getD l.length d = a := by
  rw [List.getD_eq_getElem?_getD, List.getElem?_concat_length]
  rfl

/-- `getD` after `set` at the written index returns the written value. -/
theorem getD_set_self {α : Type} (l : List α) (i : ℕ) (a d : α)
    (h : i < l.length) : (l.set i a).getD i d = a := by
  rw [List.getD_eq_getElem?_getD, List.getElem?_set_self h]
  rfl

/-- `getD` after `set` at a different index is unchanged. -/
theorem getD_set_ne {α : Type} (l : List α) (i j : ℕ) (a d : α) (h : i ≠ j) :
    (l.set i a).getD j d = l.getD j d := by
  rw [List.getD_eq_getElem?_getD, List.getElem?_set_ne h,
    ← List.getD_eq_getElem?_getD]

/-- `getD` of `dropLast` agrees with the original list below the last
index. -/
theorem getD_dropLast {α : Type} (l : List α) (i : ℕ) (d : α)
    (h : i < l.length - 1) : l.dropLast.getD i d = l.getD i d := by
  rw [List.getD_eq_getElem?_getD, List.dropLast_eq_take, List.getElem?_take,
    if_pos h, ← List.getD_eq_getElem?_getD]

/-- Specification of `add_widget` with no explicit row on a well-formed
table: some row is allocated and holds the new box row, the allocated row
is not in the reuse pool, exactly one row becomes active, the invariants
are preserved, and when the reuse pool was nonempty the allocated row is
its minimum and the frontier `current_row` does not move. -/
theorem addWidget_none_spec (t : TableState) (br : List ℕ) (hinv : TInv t) :
    ∃ r, (addWidget t none br).2 = .ok r
      ∧ (addWidget t none br).1.boxes.getD r [] = br
      ∧ r ∉ (addWidget t none br).1.empty_rows
      ∧ activeCount (addWidget t none br).1 = activeCount t + 1
      ∧ TInv (addWidget t none br).1
      ∧ (t.empty_rows ≠ [] →
          r ∈ t.empty_rows ∧ (∀ r2 ∈ t.empty_rows, r ≤ r2)
          ∧ (addWidget t none br).1.current_row = t.current_row) := by
  obtain ⟨hlen, hcr, hnd, hvac⟩ := hinv
  by_cases he : t.empty_rows = []
  · have hEq : addWidget t none br
        = ({ t with current_row := t.current_row + 1, boxes := t.boxes ++ [br] },
           .ok (t.current_row + 1).toNat) := by
      simp only [addWidget]
      rw [if_pos he]
    refine ⟨(t.current_row + 1).toNat, ?_, ?_, ?_, ?_, ?_, ?_⟩
    · rw [hEq]
    · rw [hEq]
      show (t.boxes ++ [br]).getD (t.current_row + 1).toNat [] = br
      have hl2 : (t.current_row + 1).toNat = t.boxes.length := by omega
      rw [hl2, getD_append_length]
    · rw [hEq]
      show (t.current_row + 1).toNat ∉ t.empty_rows
      rw [he]
      exact List.not_mem_nil _
    · rw [hEq]
      show activeCount { t with current_row := t.current_row + 1, boxes := t.boxes ++ [br] }
        = activeCount t + 1
      simp only [activeCount]
      omega
    · rw [hEq]
      refine ⟨?_, ?_, hnd, ?_⟩
      · show (t.boxes ++ [br]).length = (t.current_row + 1 + 1).toNat
        rw [List.length_append]
        simp only [List.length_cons, List.length_nil]
        omega
      · show (-1 : ℤ) ≤ t.current_row + 1
        omega
      · intro r2 hr2
        have hr2' : r2 ∈ t.empty_rows := hr2
        rw [he] at hr2'
        exact absurd hr2' (List.not_mem_nil _)
    · intro hne
      exact absurd he hne
  · have hperm : List.Perm (sortNat t.empty_rows) t.empty_rows :=
      List.perm_insertionSort _ _
    have hsort : List.Sorted (· ≤ ·) (sortNat t.empty_rows) :=
      List.sorted_insertionSort _ _
    have hsne : sortNat t.empty_rows ≠ [] := by
      intro h0
      rw [h0] at hperm
      exact he hperm.symm.eq_nil
    obtain ⟨a, tl, hes⟩ := List.exists_cons_of_ne_nil hsne
    have hsc := List.sorted_cons.mp (hes ▸ hsort)
    have hndes : (a :: tl).Nodup := hes ▸ hperm.nodup_iff.mpr hnd
    have hantl : a ∉ tl := (List.nodup_cons.mp hndes).1
    have ha : a ∈ t.empty_rows := hperm.mem_iff.mp
      (by rw [hes]; exact List.mem_cons_self a tl)
    have halen : a < t.boxes.length := (hvac a ha).1
    have hmin : ∀ r2 ∈ t.empty_rows, a ≤ r2 := by
      intro r2 hr2
      have h2 : r2 ∈ a :: tl := by rw [← hes]; exact hperm.mem_iff.mpr hr2
      rcases List.mem_cons.mp h2 with h | h
      · exact le_of_eq h.symm
      · exact hsc.1 r2 h
    have hlen2 : tl.length + 1 = t.empty_rows.length := by
      have hq := hperm.length_eq
      rw [hes] at hq
      simpa using hq
    have hEq : addWidget t none br
        = ({ t with empty_rows := tl, boxes := t.boxes.set a br }, .ok a) := by
      simp only [addWidget]
      rw [if_neg he, hes, List.headD_cons, List.erase_cons_head]
    refine ⟨a, ?_, ?_, ?_, ?_, ?_, ?_⟩
    · rw [hEq]
    · rw [hEq]
      show (t.boxes.set a br).getD a [] = br
      exact getD_set_self _ _ _ _ halen
    · rw [hEq]
      show a ∉ tl
      exact hantl
    · rw [hEq]
      show activeCount { t with empty_rows := tl, boxes := t.boxes.set a br }
        = activeCount t + 1
      simp only [activeCount]
      omega
    · rw [hEq]
      refine ⟨?_, hcr, (List.nodup_cons.mp hndes).2, ?_⟩
      · show (t.boxes.set a br).length = (t.current_row + 1).toNat
        rw [List.length_set]
        exact hlen
      · intro r2 hr2
        have hr2t : r2 ∈ tl := hr2
        have hr2e : r2 ∈ t.empty_rows := hperm.mem_iff.mp
          (by rw [hes]; exact List.mem_cons_of_mem a hr2t)
        have hne2 : a ≠ r2 := fun hh => hantl (hh ▸ hr2t)
        refine ⟨?_, ?_⟩
        · show r2 < (t.boxes.set a br).length
          rw [List.length_set]
          exact (hvac r2 hr2e).1
        · show (t.boxes.set a br).getD r2 [] = []
          rw [getD_set_ne _ _ _ _ _ hne2]
          exact (hvac r2 hr2e).2
    · intro _
      exact ⟨ha, hmin, by rw [hEq]⟩

/-- `remove_row` preserves the table invariants whether it rejects the
request, shrinks the frontier, or pools the vacated row. -/
theorem removeRow_TInv (t : TableState) (r : ℕ) (hinv : TInv t) :
    TInv (removeRow t r).1 := by
  obtain ⟨hlen, hcr, hnd, hvac⟩ := hinv
  by_cases hg : r ∈ t.empty_rows ∨ (r : ℤ) > t.current_row
  · have hEq : removeRow t r = (t, some ("row " ++ toString r ++ " is already empty.")) := by
      simp only [removeRow]
      rw [if_pos hg]
    rw [hEq]
    exact ⟨hlen, hcr, hnd, hvac⟩
  · rcases not_or.mp hg with ⟨hrne, hrgt⟩
    have hrle : (r : ℤ) ≤ t.current_row := not_lt.mp hrgt
    by_cases hl : (r : ℤ) = t.current_row
    · have hEq : removeRow t r
          = ({ t with cells := fun rr c => if rr = r ∧ c < 3 then "" else t.cells rr c, current_row := t.current_row - 1, boxes := t.boxes.dropLast }, none) := by
        simp only [removeRow]
        rw [if_neg hg, if_pos hl]
      rw [hEq]
      refine ⟨?_, ?_, hnd, ?_⟩
      · show t.boxes.dropLast.length = (t.current_row - 1 + 1).toNat
        rw [List.length_dropLast, hlen]
        omega
      · show (-1 : ℤ) ≤ t.current_row - 1
        omega
      · intro r2 hr2
        have hr2e : r2 ∈ t.empty_rows := hr2
        have h1 := hvac r2 hr2e
        have hne : r2 ≠ r := fun hh => hrne (hh ▸ hr2e)
        have hb : r2 < t.boxes.length - 1 := by omega
        refine ⟨?_, ?_⟩
        · show r2 < t.boxes.dropLast.length
          rw [List.length_dropLast]
          exact hb
        · show t.boxes.dropLast.getD r2 [] = []
          rw [getD_dropLast _ _ _ hb]
          exact h1.2
    · have hEq : removeRow t r
          = ({ t with cells := fun rr c => if rr = r ∧ c < 3 then "" else t.cells rr c, empty_rows := t.empty_rows ++ [r], boxes := t.boxes.set r [] }, none) := by
        simp only [removeRow]
        rw [if_neg hg, if_neg hl]
      rw [hEq]
      refine ⟨?_, hcr, ?_, ?_⟩
      · show (t.boxes.set r []).length = (t.current_row + 1).toNat
        rw [List.length_set]
        exact hlen
      · show (t.empty_rows ++ [r]).Nodup
        rw [List.nodup_append]
        refine ⟨hnd, List.nodup_singleton r, ?_⟩
        intro x hx hx2
        rw [List.mem_singleton] at hx2
        subst hx2
        exact hrne hx
      · intro r2 hr2
        have hr2' : r2 ∈ t.empty_rows ++ [r] := hr2
        rw [List.mem_append, List.mem_singleton] at hr2'
        rcases hr2' with h | h
        · have h1 := hvac r2 h
          have hne : r2 ≠ r := fun hh => hrne (hh ▸ h)
          refine ⟨?_, ?_⟩
          · show r2 < (t.boxes.set r []).length
            rw [List.length_set]
            exact h1.1
          · show (t.boxes.set r []).getD r2 [] = []
            rw [getD_set_ne _ _ _ _ _ (Ne.symm hne)]
            exact h1.2
        · subst h
          have hb : r2 < t.boxes.length := by omega
          refine ⟨?_, ?_⟩
          · show r2 < (t.boxes.set r2 []).length
            rw [List.length_set]
            exact hb
          · show (t.boxes.set r2 []).getD r2 [] = []
            rw [getD_set_self _ _ _ _ hb]

/-- Unfolding of `sliderInitT` once the row allocation is known to have
succeeded. -/
theorem sliderInitT_ok (t : TableState) (name : String) (varName : Option String)
    (logscale : Bool) (mn mx : ℚ) (cA : Option (List ℚ)) (row : Option ℕ)
    (t1 : TableState) (r : ℕ)
    (hA : addWidget { t with nextId := t.nextId + 2 } row
        (if name = "" then [t.nextId] else [t.nextId + 1, t.nextId]) = (t1, .ok r)) :
    sliderInitT t name varName logscale mn mx cA row
      = match (if name = "" then varName else some (varName.getD name)) with
        | none => (t1, Except.error "name can only be empty if var_name is specified")
        | some vn =>
          if cA = none ∧ logscale ∧ mn * mx ≤ 0 then
            ({ t1 with input_varnames := t1.input_varnames ++ [some vn] },
             Except.error "`min_value` and `max_value` must have the same sign when `logscale` is enabled.")
          else ({ t1 with input_varnames := t1.input_varnames ++ [some vn] }, Except.ok r) := by
  simp only [sliderInitT]
  rw [hA]

/-- Unfolding of `checkBoxInitT` once the row allocation is known to have
succeeded. -/
theorem checkBoxInitT_ok (t : TableState) (name : String) (varName : Option String)
    (row : Option ℕ) (t1 : TableState) (r : ℕ)
    (hA : addWidget { t with nextId := t.nextId + 2 } row
        (if name = "" then [t.nextId] else [t.nextId + 1, t.nextId]) = (t1, .ok r)) :
    checkBoxInitT t name varName row
      = match (if name = "" then varName else some (varName.getD name)) with
        | none => (t1, Except.error "name can only be empty if var_name is specified")
        | some vn =>
          ({ t1 with input_varnames := t1.input_varnames ++ [some vn] }, Except.ok r) := by
  simp only [checkBoxInitT]
  rw [hA]

/-- C6: removing row 2 of the five-row table `tbl5` (rows 0..4 active)
and then adding a box with no explicit row reuses row 2 — not row 5 —
while `current_row` stays 4; in general, on a well-formed table whose
reuse pool is nonempty, allocation with an unspecified row claims the
lowest-numbered empty row and leaves `current_row` unchanged, and both
`add_widget` and `remove_row` preserve the invariant that `empty_rows`
is duplicate-free and disjoint from the rows holding active boxes. -/
theorem C6_lowest_empty_row_reuse (t : TableState) (br : List ℕ)
    (hinv : TInv t) (hne : t.empty_rows ≠ []) :
    ((removeRow tbl5 2).2 = none
      ∧ tbl5.current_row = 4
      ∧ tblR.current_row = 4
      ∧ (addWidget tblR none [11]).2 = .ok 2
      ∧ (addWidget tblR none [11]).1.current_row = 4)
    ∧ (∃ r, (addWidget t none br).2 = .ok r
        ∧ r ∈ t.empty_rows
        ∧ (∀ r2 ∈ t.empty_rows, r ≤ r2)
        ∧ (addWidget t none br).1.current_row = t.current_row)
    ∧ TInv (addWidget t none br).1
    ∧ (∀ r0, TInv (removeRow t r0).1) := by
  refine ⟨⟨of_decide_eq_true (by with_unfolding_all rfl),
      of_decide_eq_true (by with_unfolding_all rfl),
      of_decide_eq_true (by with_unfolding_all rfl),
      of_decide_eq_true (by with_unfolding_all rfl),
      of_decide_eq_true (by with_unfolding_all rfl)⟩, ?_, ?_, ?_⟩
  · obtain ⟨r, h1, _, _, _, _, hx⟩ := addWidget_none_spec t br hinv
    obtain ⟨hm, hmin, hcr⟩ := hx hne
    exact ⟨r, h1, hm, hmin, hcr⟩
  · obtain ⟨r, _, _, _, _, hTI, _⟩ := addWidget_none_spec t br hinv
    exact hTI
  · intro r0
    exact removeRow_TInv t r0 hinv

/-- Witness for C6 at the concrete table `tblR` (rows 0..4 with row 2
vacated): the hypotheses hold and the freshly added box claims row 2. -/
theorem C6_lowest_empty_row_reuse_witness :
    (TInv tblR ∧ tblR.empty_rows ≠ [])
    ∧ (∃ r, (addWidget tblR none [11]).2 = .ok r
        ∧ r ∈ tblR.empty_rows
        ∧ (∀ r2 ∈ tblR.empty_rows, r ≤ r2)
        ∧ (addWidget tblR none [11]).1.current_row = tblR.current_row) :=
  ⟨⟨of_decide_eq_true (by with_unfolding_all rfl),
    of_decide_eq_true (by with_unfolding_all rfl)⟩,
    (C6_lowest_empty_row_reuse tblR [11]
      (of_decide_eq_true (by with_unfolding_all rfl))
      (of_decide_eq_true (by with_unfolding_all rfl))).2.1⟩

/-- C10 (implicit): when a box constructor raises a configuration error
after the row was allocated — an empty `name` with no `var_name` (Slider
or CheckBox), or a log-scale Slider whose bounds are of mixed sign — the
allocated row is never released: the failed construction leaves the
table with one more active row, the claimed row still holding the new
widgets and absent from `empty_rows`, so every failed construction
permanently consumes one row. -/
theorem C10_failed_constructor_consumes_row (t : TableState) (name : String)
    (logscale : Bool) (mn mx : ℚ) (hinv : TInv t) (hname : name ≠ "")
    (hsign : mn * mx ≤ 0) :
    (∃ r, (sliderInitT t "" none logscale mn mx none none).2
          = .error "name can only be empty if var_name is specified"
        ∧ activeCount (sliderInitT t "" none logscale mn mx none none).1
            = activeCount t + 1
        ∧ (sliderInitT t "" none logscale mn mx none none).1.boxes.getD r [] ≠ []
        ∧ r ∉ (sliderInitT t "" none logscale mn mx none none).1.empty_rows
        ∧ TInv (sliderInitT t "" none logscale mn mx none none).1)
    ∧ (∃ r, (checkBoxInitT t "" none none).2
          = .error "name can only be empty if var_name is specified"
        ∧ activeCount (checkBoxInitT t "" none none).1 = activeCount t + 1
        ∧ (checkBoxInitT t "" none none).1.boxes.getD r [] ≠ []
        ∧ r ∉ (checkBoxInitT t "" none none).1.empty_rows
        ∧ TInv (checkBoxInitT t "" none none).1)
    ∧ (∃ r, (sliderInitT t name none true mn mx none none).2
          = .error "`min_value` and `max_value` must have the same sign when `logscale` is enabled."
        ∧ activeCount (sliderInitT t name none true mn mx none none).1
            = activeCount t + 1
        ∧ (sliderInitT t name none true mn mx none none).1.boxes.getD r [] ≠ []
        ∧ r ∉ (sliderInitT t name none true mn mx none none).1.empty_rows
        ∧ TInv (sliderInitT t name none true mn mx none none).1) := by
  have hinv2 : TInv { t with nextId := t.nextId + 2 } := hinv
  refine ⟨?_, ?_, ?_⟩
  · rcases hA2 : addWidget { t with nextId := t.nextId + 2 } none [t.nextId]
      with ⟨t1, res⟩
    obtain ⟨r, h1, h2, h3, h4, h5, _⟩ :=
      addWidget_none_spec { t with nextId := t.nextId + 2 } [t.nextId] hinv2
    rw [hA2] at h1 h2 h3 h4 h5
    obtain rfl : res = Except.ok r := h1
    have h2' : t1.boxes.getD r [] = [t.nextId] := h2
    have h3' : r ∉ t1.empty_rows := h3
    have h4' : activeCount t1 = activeCount t + 1 := h4
    have h5' : TInv t1 := h5
    have hA2' : addWidget { t with nextId := t.nextId + 2 } none
        (if ("" : String) = "" then [t.nextId] else [t.nextId + 1, t.nextId])
        = (t1, Except.ok r) := by
      rw [if_pos rfl]
      exact hA2
    have hEq : sliderInitT t "" none logscale mn mx none none
        = (t1, Except.error "name can only be empty if var_name is specified") := by
      rw [sliderInitT_ok t "" none logscale mn mx none none t1 r hA2']
      with_unfolding_all rfl
    refine ⟨r, ?_, ?_, ?_, ?_, ?_⟩
    · rw [hEq]
    · rw [hEq]
      exact h4'
    · rw [hEq]
      show t1.boxes.getD r [] ≠ []
      rw [h2']
      exact List.cons_ne_nil _ _
    · rw [hEq]
      exact h3'
    · rw [hEq]
      exact h5'
  · rcases hA2 : addWidget { t with nextId := t.nextId + 2 } none [t.nextId]
      with ⟨t1, res⟩
    obtain ⟨r, h1, h2, h3, h4, h5, _⟩ :=
      addWidget_none_spec { t with nextId := t.nextId + 2 } [t.nextId] hinv2
    rw [hA2] at h1 h2 h3 h4 h5
    obtain rfl : res = Except.ok r := h1
    have h2' : t1.boxes.getD r [] = [t.nextId] := h2
    have h3' : r ∉ t1.empty_rows := h3
    have h4' : activeCount t1 = activeCount t + 1 := h4
    have h5' : TInv t1 := h5
    have hA2' : addWidget { t with nextId := t.nextId + 2 } none
        (if ("" : String) = "" then [t.nextId] else [t.nextId + 1, t.nextId])
        = (t1, Except.ok r) := by
      rw [if_pos rfl]
      exact hA2
    have hEq : checkBoxInitT t "" none none
        = (t1, Except.error "name can only be empty if var_name is specified") := by
      rw [checkBoxInitT_ok t "" none none t1 r hA2']
      with_unfolding_all rfl
    refine ⟨r, ?_, ?_, ?_, ?_, ?_⟩
    · rw [hEq]
    · rw [hEq]
      exact h4'
    · rw [hEq]
      show t1.boxes.getD r [] ≠ []
      rw [h2']
      exact List.cons_ne_nil _ _
    · rw [hEq]
      exact h3'
    · rw [hEq]
      exact h5'
  · rcases hA3 : addWidget { t with nextId := t.nextId + 2 } none
      [t.nextId + 1, t.nextId] with ⟨t1, res⟩
    obtain ⟨r, h1, h2, h3, h4, h5, _⟩ :=
      addWidget_none_spec { t with nextId := t.nextId + 2 } [t.nextId + 1, t.nextId] hinv2
    rw [hA3] at h1 h2 h3 h4 h5
    obtain rfl : res = Except.ok r := h1
    have h2' : t1.boxes.getD r [] = [t.nextId + 1, t.nextId] := h2
    have h3' : r ∉ t1.empty_rows := h3
    have h4' : activeCount t1 = activeCount t + 1 := h4
    have h5' : TInv t1 := h5
    have hA3' : addWidget { t with nextId := t.nextId + 2 } none
        (if name = "" then [t.nextId] else [t.nextId + 1, t.nextId])
        = (t1, Except.ok r) := by
      rw [if_neg hname]
      exact hA3
    have hEq : sliderInitT t name none true mn mx none none
        = ({ t1 with input_varnames := t1.input_varnames ++ [some name] },
           Except.error "`min_value` and `max_value` must have the same sign when `logscale` is enabled.") := by
      refine Eq.trans (sliderInitT_ok t name none true mn mx none none t1 r hA3') ?_
      rw [if_neg hname]
      show (if (none : Option (List ℚ)) = none ∧ true = true ∧ mn * mx ≤ 0 then
          ({ t1 with input_varnames := t1.input_varnames ++ [some name] },
           Except.error "`min_value` and `max_value` must have the same sign when `logscale` is enabled.")
        else ({ t1 with input_varnames := t1.input_varnames ++ [some name] }, Except.ok r))
        = ({ t1 with input_varnames := t1.input_varnames ++ [some name] },
           Except.error "`min_value` and `max_value` must have the same sign when `logscale` is enabled.")
      rw [if_pos ⟨rfl, rfl, hsign⟩]
    refine ⟨r, ?_, ?_, ?_, ?_, ?_⟩
    · rw [hEq]
    · rw [hEq]
      show activeCount { t1 with input_varnames := t1.input_varnames ++ [some name] }
        = activeCount t + 1
      exact h4'
    · rw [hEq]
      show t1.boxes.getD r [] ≠ []
      rw [h2']
      exact List.cons_ne_nil _ _
    · rw [hEq]
      exact h3'
    · rw [hEq]
      exact h5'

/-- Witness for C10 on a fresh table with `name = "s"` and bounds
`[-1, 1]`. -/
theorem C10_failed_constructor_consumes_row_witness :
    (TInv initT ∧ ("s" : String) ≠ "" ∧ ((-1 : ℚ)) * 1 ≤ 0)
    ∧ (∃ r, (sliderInitT initT "" none false (-1) 1 none none).2
          = .error "name can only be empty if var_name is specified"
        ∧ activeCount (sliderInitT initT "" none false (-1) 1 none none).1
            = activeCount initT + 1
        ∧ (sliderInitT initT "" none false (-1) 1 none none).1.boxes.getD r [] ≠ []
        ∧ r ∉ (sliderInitT initT "" none false (-1) 1 none none).1.empty_rows
        ∧ TInv (sliderInitT initT "" none false (-1) 1 none none).1) :=
  ⟨⟨of_decide_eq_true (by with_unfolding_all rfl),
    of_decide_eq_true (by with_unfolding_all rfl),
    of_decide_eq_true (by with_unfolding_all rfl)⟩,
    (C10_failed_constructor_consumes_row initT "s" false (-1) 1
      (of_decide_eq_true (by with_unfolding_all rfl))
      (of_decide_eq_true (by with_unfolding_all rfl))
      (of_decide_eq_true (by with_unfolding_all rfl))).1⟩

end Squap